import Mathlib

/-!
Verification of the transcription-pipeline core of `webtv.unfck.org`.

The development shallowly embeds the persistence layer (`src/lib/turso.ts`),
the transcription orchestration endpoint (`src/app/api/transcribe/route.ts`),
the segment gap-analysis endpoint (`src/app/api/transcribe/segments/route.ts`),
the speaker-identification endpoints, and the UN80 topic-tagging pass
(`src/scripts/tag-un80.ts`).

Conventions of the embedding:
* JS numbers (times in seconds, timestamps) are rationals `ℚ`; ISO timestamp
  strings, which the code compares lexicographically, are modelled as rational
  instants (lexicographic order on ISO-8601 strings agrees with time order).
* SQL tables are lists of rows; `UPDATE ... WHERE` is `List.map` guarded by the
  predicate, `DELETE ... WHERE` is `List.filter` on the negated predicate.
* External services (Kaltura resolution, AssemblyAI submission/poll, the
  classification model) are oracle parameters of the handler functions:
  an `Except` value is a call that either throws or returns.
* JS `x || y` on optionals (with `0` and `""` falsy) is modelled explicitly.
-/

/-- `TranscriptStatus` from `src/lib/turso.ts` line 4. -/
inductive TranscriptStatus where
  | transcribing
  | transcribed
  | identifying_speakers
  | analyzing_topics
  | completed
  | error
deriving DecidableEq, Repr

/-- Word-level timing entry (with the optional diarization `speaker` label that
raw AssemblyAI paragraphs carry), from the `words` arrays in
`src/lib/turso.ts`. -/
structure Word where
  text : String
  start : ℚ
  «end» : ℚ
  confidence : ℚ
  speaker : Option String := none
deriving DecidableEq, Repr

/-- A sentence of the statement hierarchy.  Field union of the declarations in
`src/lib/turso.ts` (`topic_keys`) and `src/scripts/tag-un80.ts`
(`un80_topic_keys`), which describe the same stored JSON. -/
structure Sentence where
  text : String
  start : ℚ
  «end» : ℚ
  topic_keys : Option (List String) := none
  un80_topic_keys : Option (List String) := none
  words : List Word := []
deriving DecidableEq, Repr

/-- A paragraph inside a statement (`statements[].paragraphs[]`). -/
structure SentPara where
  sentences : List Sentence
  start : ℚ
  «end» : ℚ
  words : List Word := []
deriving DecidableEq, Repr

/-- One statement (continuous speaking turn). -/
structure Statement where
  paragraphs : List SentPara
  start : ℚ
  «end» : ℚ
  words : List Word := []
deriving DecidableEq, Repr

/-- A raw transcription paragraph (`RawParagraph` in `src/lib/turso.ts`). -/
structure RawParagraph where
  text : String
  start : ℚ
  «end» : ℚ
  words : List Word := []
deriving DecidableEq, Repr

/-- A topic-dictionary entry `{key, label, description}`. -/
structure TopicDef where
  key : String
  label : String
  description : String
deriving DecidableEq, Repr

/-- The transcript `content` JSON document (`TranscriptContent` in
`src/lib/turso.ts`, extended by `un80_topics` which `tag-un80.ts` writes).
Topic dictionaries are association lists from topic key to definition. -/
structure Content where
  raw_paragraphs : Option (List RawParagraph) := none
  statements : List Statement := []
  topics : Option (List (String × TopicDef)) := none
  un80_topics : Option (List (String × TopicDef)) := none
deriving DecidableEq, Repr

/-- A row of the `transcripts` table (`Transcript` in `src/lib/turso.ts`). -/
structure Row where
  entry_id : String
  transcript_id : String
  start_time : Option ℚ
  end_time : Option ℚ
  audio_url : String
  status : TranscriptStatus
  language_code : Option String
  content : Content
  pipeline_lock : Option ℚ
  error_message : Option String
  created_at : ℚ
  updated_at : ℚ
deriving DecidableEq, Repr

/-- Inferred speaker attributes, one record per statement/paragraph index
(the value type of the speaker mapping). -/
structure SpeakerInfo where
  name : Option String
  function : Option String
  affiliation : Option String
  group : Option String
deriving DecidableEq, Repr

/-- A stored speaker mapping: association list from stringified paragraph
index to speaker attributes. -/
abbrev SpeakerMapping := List (String × SpeakerInfo)

/-- A row of the `videos` catalog table (only the identity fields matter for
the claims; the rest of the record is irrelevant to the pipeline core). -/
structure VideoRow where
  asset_id : String
  entry_id : Option String
deriving DecidableEq, Repr

/-- The durable state: the three tables created in `ensureInitialized` in
`src/lib/turso.ts` (`transcripts`, `speaker_mappings`, `videos`). -/
structure Db where
  transcripts : List Row
  speaker_mappings : List (String × SpeakerMapping)
  videos : List VideoRow
deriving DecidableEq, Repr

/-! ## Persistence operations (`src/lib/turso.ts`) -/

/-- `PIPELINE_LOCK_TIMEOUT_MS` (30 minutes), `src/lib/turso.ts` line 257.
Timestamps are in milliseconds. -/
def PIPELINE_LOCK_TIMEOUT_MS : ℚ := 30 * 60 * 1000

/-- The acquisition condition of `tryAcquirePipelineLock`: the SQL guard
`pipeline_lock IS NULL OR pipeline_lock < cutoff` with
`cutoff = now - PIPELINE_LOCK_TIMEOUT_MS`. -/
def lockFree (r : Row) (now : ℚ) : Prop :=
  r.pipeline_lock = none ∨
    ∃ t, r.pipeline_lock = some t ∧ t < now - PIPELINE_LOCK_TIMEOUT_MS

instance (r : Row) (now : ℚ) : Decidable (lockFree r now) := by
  unfold lockFree
  cases h : r.pipeline_lock with
  | none => exact .isTrue (Or.inl rfl)
  | some t =>
    by_cases ht : t < now - PIPELINE_LOCK_TIMEOUT_MS
    · exact .isTrue (Or.inr ⟨t, rfl, ht⟩)
    · refine .isFalse ?_
      rintro (hnone | ⟨u, hu, hlt⟩)
      · exact absurd hnone (by simp)
      · exact ht (by injection hu with hu; exact hu ▸ hlt)

/-- `tryAcquirePipelineLock` (`src/lib/turso.ts` lines 259-270): the
conditional `UPDATE` sets `pipeline_lock` and `updated_at` to `now` on every
row matching the transcript id whose lock is absent or stale; the function
returns `rowsAffected > 0`. -/
def tryAcquirePipelineLock (db : List Row) (tid : String) (now : ℚ) :
    List Row × Bool :=
  (db.map fun r =>
      if r.transcript_id = tid ∧ lockFree r now then
        { r with pipeline_lock := some now, updated_at := now }
      else r,
   db.any fun r => decide (r.transcript_id = tid ∧ lockFree r now))

/-- `releasePipelineLock` (`src/lib/turso.ts` lines 272-278). -/
def releasePipelineLock (db : List Row) (tid : String) (now : ℚ) : List Row :=
  db.map fun r =>
    if r.transcript_id = tid then
      { r with pipeline_lock := none, updated_at := now }
    else r

/-- `updateTranscriptStatus` (`src/lib/turso.ts` lines 240-247): sets
`status`, `error_message` (to `NULL` when no message is passed, via
`errorMessage ?? null`) and `updated_at`. -/
def updateTranscriptStatus (db : List Row) (tid : String)
    (status : TranscriptStatus) (errorMessage : Option String) (now : ℚ) :
    List Row :=
  db.map fun r =>
    if r.transcript_id = tid then
      { r with status := status, error_message := errorMessage,
               updated_at := now }
    else r

/-- `saveTranscript` (`src/lib/turso.ts` lines 220-238): an upsert keyed by
`transcript_id`.  On conflict only `status`, `language_code`, `content` and
`updated_at` are overwritten; a fresh row gets `NULL` `pipeline_lock` and
`error_message` (columns absent from the `INSERT` list). -/
def saveTranscript (db : List Row) (entryId tid : String)
    (startTime endTime : Option ℚ) (audioUrl : String)
    (status : TranscriptStatus) (languageCode : Option String)
    (content : Content) (now : ℚ) : List Row :=
  if db.any fun r => r.transcript_id = tid then
    db.map fun r =>
      if r.transcript_id = tid then
        { r with status := status, language_code := languageCode,
                 content := content, updated_at := now }
      else r
  else
    db ++ [{ entry_id := entryId, transcript_id := tid,
             start_time := startTime, end_time := endTime,
             audio_url := audioUrl, status := status,
             language_code := languageCode, content := content,
             pipeline_lock := none, error_message := none,
             created_at := now, updated_at := now }]

/-- `deleteTranscript` (`src/lib/turso.ts` lines 280-287). -/
def deleteTranscript (db : List Row) (tid : String) : List Row :=
  db.filter fun r => r.transcript_id ≠ tid

/-- `deleteTranscriptsForEntry` (`src/lib/turso.ts` lines 289-296): a
`DELETE FROM transcripts WHERE entry_id = ?`; it touches no other table. -/
def deleteTranscriptsForEntry (db : Db) (entryId : String) : Db :=
  { db with transcripts := db.transcripts.filter fun r => r.entry_id ≠ entryId }

/-- `getTranscriptById` (`src/lib/turso.ts` lines 199-218): `SELECT` by the
primary key, first row or null. -/
def getTranscriptById (db : List Row) (tid : String) : Option Row :=
  db.find? fun r => r.transcript_id = tid

/-- Pick the row with maximal `updated_at` (the `ORDER BY updated_at DESC
LIMIT 1` of `getTranscript`; among equal timestamps the choice is
unspecified in SQL, here the earliest listed). -/
def latestByUpdatedAt (rows : List Row) : Option Row :=
  rows.foldl
    (fun acc r =>
      match acc with
      | none => some r
      | some a => if a.updated_at < r.updated_at then some r else some a)
    none

/-- The row filter of `getTranscript`'s `WHERE` clause: the
`(entry_id, start_time, end_time)` key, plus `status = 'completed'` when
`completedOnly` is set. -/
def keyMatch (entryId : String) (startTime endTime : Option ℚ)
    (completedOnly : Bool) (r : Row) : Prop :=
  r.entry_id = entryId ∧ r.start_time = startTime ∧ r.end_time = endTime ∧
    (completedOnly → r.status = TranscriptStatus.completed)

instance (entryId : String) (startTime endTime : Option ℚ)
    (completedOnly : Bool) (r : Row) :
    Decidable (keyMatch entryId startTime endTime completedOnly r) := by
  unfold keyMatch
  infer_instance

/-- `getTranscript` (`src/lib/turso.ts` lines 136-173): looks a transcript up
by `(entry_id, start_time, end_time)` — both range bounds `NULL` when the
caller passes no range — optionally restricted to `status = 'completed'`,
newest `updated_at` first. -/
def getTranscript (db : List Row) (entryId : String)
    (startTime endTime : Option ℚ) (completedOnly : Bool) : Option Row :=
  latestByUpdatedAt <| db.filter fun r =>
    keyMatch entryId startTime endTime completedOnly r

/-- `getSpeakerMapping`.  Modelled from the spec: the helper module
`src/lib/speakers.ts` is not part of the provided sources; per §3 and §4.4 of
the spec the speaker mapping is "a mapping from statement index (as a string
key) to inferred speaker attributes", stored "keyed by transcript identifier"
in the `speaker_mappings` table, and this accessor reads it. -/
def getSpeakerMapping (db : Db) (tid : String) : Option SpeakerMapping :=
  (db.speaker_mappings.find? fun m => m.1 = tid).map (·.2)

/-- `setSpeakerMapping`.  Modelled from the spec: the helper module
`src/lib/speakers.ts` is not part of the provided sources; per §4.4 the
attributor's mapping is "created/overwritten wholesale" keyed by transcript
identifier (the table's primary key), i.e. an upsert on `speaker_mappings`. -/
def setSpeakerMapping (db : Db) (tid : String) (m : SpeakerMapping) : Db :=
  { db with
    speaker_mappings :=
      if db.speaker_mappings.any fun e => e.1 = tid then
        db.speaker_mappings.map fun e => if e.1 = tid then (tid, m) else e
      else
        db.speaker_mappings ++ [(tid, m)] }

/-! ## Segment gap analysis (`src/app/api/transcribe/segments/route.ts`) -/

/-- JS `x || y` on an optional number: `null`/`undefined` and `0` are falsy. -/
def jsOrQ (x : Option ℚ) (y : ℚ) : ℚ :=
  match x with
  | none => y
  | some v => if v = 0 then y else v

/-- The response fields of the gap-analysis endpoint that the pipeline
depends on (`gaps` and `needsFullRetranscription`). -/
structure GapResp where
  gaps : List (ℚ × ℚ)
  needsFullRetranscription : Bool
deriving DecidableEq, Repr

/-- The `hasCompleteTranscript` predicate of the `isComplete` branch
(`segments/route.ts` lines 91-94): `(start_time === null || start_time === 0)
&& (end_time === null || end_time >= (totalDuration || 0))`. -/
def coversWhole (s : Row) (td : ℚ) : Bool :=
  (s.start_time = none ∨ s.start_time = some 0 : Bool) &&
    (match s.end_time with
     | none => true
     | some e => td ≤ e)

/-- The live-branch interval list (`segments/route.ts` lines 123-129):
completed segments coerced by `start_time || 0` / `end_time || 0`, before
sorting. -/
def completedIntervals (segs : List Row) : List (ℚ × ℚ) :=
  (segs.filter fun s => s.status = TranscriptStatus.completed).map
    fun s => (s.start_time.getD 0, s.end_time.getD 0)

/-- The sorted interval list: JS `Array.prototype.sort` with comparator
`a.start - b.start` is a stable sort by start, modelled by a stable
insertion sort. -/
def sortedIntervals (segs : List Row) : List (ℚ × ℚ) :=
  List.insertionSort (fun a b : ℚ × ℚ => a.1 ≤ b.1) (completedIntervals segs)

/-- Mid- and end-gaps of the live branch (`segments/route.ts` lines 140-154):
given the previous segment `a`, emit a gap `(a.end, b.start)` before each
following segment `b` whose start exceeds `a.end`, and finally the gap
`(last.end, targetEnd)` when the last segment stops short of `targetEnd`. -/
def gapsAfter (targetEnd : ℚ) (a : ℚ × ℚ) : List (ℚ × ℚ) → List (ℚ × ℚ)
  | [] => if a.2 < targetEnd then [(a.2, targetEnd)] else []
  | b :: rest => (if a.2 < b.1 then [(a.2, b.1)] else []) ++ gapsAfter targetEnd b rest

/-- The live-branch gap computation (`segments/route.ts` lines 131-155):
the whole range when no completed segment exists, otherwise a start gap
`(0, first.start)` when the first segment starts late, then `gapsAfter`. -/
def computeLiveGaps (targetEnd : ℚ) : List (ℚ × ℚ) → List (ℚ × ℚ)
  | [] => [(0, targetEnd)]
  | c :: cs => (if 0 < c.1 then [(0, c.1)] else []) ++ gapsAfter targetEnd c cs

/-- The gap-analysis `POST` handler core (`segments/route.ts` lines 89-161),
taking the rows `getAllTranscriptsForEntry` returned for the resolved entry
(`status = 'completed'` rows).  The `existingSegments` response field (a
paragraph re-timing) is independent of the claims and not modelled. -/
def segmentsAnalysis (segs : List Row) (currentTime totalDuration : Option ℚ)
    (isComplete : Bool) : GapResp :=
  if isComplete then
    let td := totalDuration.getD 0
    if segs.any fun s => coversWhole s td then
      ⟨[], false⟩
    else if 0 < segs.length then
      ⟨[], true⟩
    else
      ⟨[(0, td)], false⟩
  else
    let targetEnd := jsOrQ currentTime (jsOrQ totalDuration 0)
    ⟨computeLiveGaps targetEnd (sortedIntervals segs), false⟩

/-- A time point is covered by a list of intervals, each read half-open
`[start, end)`. -/
def coveredBy (l : List (ℚ × ℚ)) (t : ℚ) : Prop :=
  ∃ c ∈ l, c.1 ≤ t ∧ t < c.2

instance (l : List (ℚ × ℚ)) (t : ℚ) : Decidable (coveredBy l t) :=
  inferInstanceAs (Decidable (∃ c ∈ l, _ ∧ _))

/-! ## Transcription orchestration (`src/app/api/transcribe/route.ts`) -/

/-- Result of `getKalturaAudioUrl` (`src/lib/transcription.ts` is not part of
the provided sources; the field set is the destructuring at
`transcribe/route.ts` line 15, matching spec §4.1
`resolve(videoId) -> {entryId, audioUrl, flavorId, isLiveStream}`). -/
structure ResolveResult where
  entryId : String
  audioUrl : String
  flavorParamId : String
  isLiveStream : Bool
deriving DecidableEq, Repr

/-- Result of `pollTranscription`.  Modelled from the spec: the Transcription
Client (`src/lib/transcription.ts`) is not part of the provided sources; per
spec §4.2 polling returns the job's current state, and the route reads
`stage`, `raw_paragraphs`, `statements`, `topics` from it
(`transcribe/route.ts` lines 40-47). -/
structure PollResult where
  stage : String
  raw_paragraphs : Option (List RawParagraph)
  statements : Option (List Statement)
  topics : Option (List (String × TopicDef))
deriving DecidableEq, Repr

/-- Responses of the transcription `POST` handler. -/
inductive TResponse where
  | err (status : ℕ) (msg : String)
  | cacheHit (statements : List Statement) (topics : List (String × TopicDef))
      (speakerMappings : SpeakerMapping) (language : Option String)
      (transcriptId : String)
  | inFlight (transcriptId : String) (stage : String)
      (raw_paragraphs : Option (List RawParagraph))
      (statements : Option (List Statement))
      (topics : Option (List (String × TopicDef)))
  | notCached
  | submittedNew (transcriptId : String)
deriving DecidableEq, Repr

/-- The transcript identifier carried by a response, if any. -/
def respTranscriptId : TResponse → Option String
  | .cacheHit _ _ _ _ tid => some tid
  | .inFlight tid _ _ _ _ => some tid
  | .submittedNew tid => some tid
  | _ => none

/-- Outcome of one transcription request: the response, the resulting durable
state, and whether the handler called `submitTranscription` respectively
`pollTranscription` on the upstream service. -/
structure TResult where
  resp : TResponse
  db : Db
  submitted : Bool
  polled : Bool
deriving DecidableEq, Repr

/-- The `POST` handler of `src/app/api/transcribe/route.ts`.  External calls
are oracle parameters: `resolve` for `getKalturaAudioUrl`, `submitRes` for
`submitTranscription` (spec §4.2 `submit(audioUrl) -> transcriptId`; the
module is not under the provided sources, so its outcome is an input),
`poll` for `pollTranscription`, `hlsRes` for the HLS download of live
streams.  `startTime`/`endTime` are `none` when absent from the request. -/
def transcribePOST (db : Db) (kalturaId : String) (checkOnly force : Bool)
    (startTime endTime : Option ℚ)
    (resolve : Except String ResolveResult)
    (submitRes : Except String String)
    (poll : String → PollResult)
    (hlsRes : Except String String)
    (now : ℚ) : TResult :=
  if kalturaId = "" then ⟨.err 400 "Kaltura ID is required", db, false, false⟩
  else
    match resolve with
    | .error e => ⟨.err 500 e, db, false, false⟩
    | .ok rr =>
      let isSegment := startTime.isSome && endTime.isSome
      let keyStart := if isSegment then startTime else none
      let keyEnd := if isSegment then endTime else none
      let proceed : Db → TResult := fun db0 =>
        if checkOnly then ⟨.notCached, db0, false, false⟩
        else
          let audioRes : Except String String :=
            if rr.isLiveStream then
              match hlsRes with
              | .error e => .error ("Failed to download HLS: " ++ e)
              | .ok uploadUrl => .ok uploadUrl
            else .ok rr.audioUrl
          match audioRes with
          | .error e => ⟨.err 500 e, db0, false, false⟩
          | .ok audioUrl =>
            match submitRes with
            | .error e => ⟨.err 500 e, db0, true, false⟩
            | .ok tid =>
              let t1 := saveTranscript db0.transcripts rr.entryId tid keyStart
                keyEnd audioUrl TranscriptStatus.transcribing none
                ⟨none, [], some [], none⟩ now
              ⟨.submittedNew tid, { db0 with transcripts := t1 }, true, false⟩
      if force then proceed (deleteTranscriptsForEntry db rr.entryId)
      else
        match getTranscript db.transcripts rr.entryId keyStart keyEnd false with
        | some cached =>
          if cached.status = TranscriptStatus.completed ∧
              0 < cached.content.statements.length then
            ⟨.cacheHit cached.content.statements (cached.content.topics.getD [])
                ((getSpeakerMapping db cached.transcript_id).getD [])
                cached.language_code cached.transcript_id,
             db, false, false⟩
          else if cached.status ≠ TranscriptStatus.error then
            let pr := poll cached.transcript_id
            ⟨.inFlight cached.transcript_id pr.stage pr.raw_paragraphs
                pr.statements pr.topics,
             db, false, true⟩
          else proceed db
        | none => proceed db

/-! ## Speaker-identification trigger endpoint (`src/unnamed/part_001`,
first file, the route the spec calls "Trigger speaker identification") -/

/-- Responses of the speaker-identification trigger handler. -/
inductive IdResponse where
  | err (status : ℕ) (msg : String)
  | ok (mapping : SpeakerMapping) (statements : List Statement)
      (topics : List (String × TopicDef))
deriving DecidableEq, Repr

/-- Outcome of one trigger request. -/
structure IdResult where
  resp : IdResponse
  db : Db
deriving DecidableEq, Repr

/-- The `POST` handler of the speaker-identification trigger endpoint
(`src/unnamed/part_001` lines 5-68).  Oracles: `fetchParagraphs` for the
AssemblyAI paragraph fetch (`.error` = non-ok response, throwing
"Failed to fetch paragraphs from AssemblyAI"; `.ok` carries the possibly
absent `data.paragraphs`), `identify` for `identifySpeakers`
(`src/lib/speaker-identification.ts` is not part of the provided sources;
per spec §4.4 it returns the mapping and persists it keyed by transcript
identifier, modelled by `setSpeakerMapping` on success). -/
def identifySpeakersPOST (db : Db) (transcriptId : String)
    (fetchParagraphs : Except String (Option (List RawParagraph)))
    (identify : Except String SpeakerMapping) (now : ℚ) : IdResult :=
  if transcriptId = "" then ⟨.err 400 "transcriptId required", db⟩
  else
    match getTranscriptById db.transcripts transcriptId with
    | none => ⟨.err 404 "Transcript not found", db⟩
    | some tr =>
      let acq := tryAcquirePipelineLock db.transcripts transcriptId now
      let db1 : Db := { db with transcripts := acq.1 }
      if acq.2 = false then ⟨.err 409 "Pipeline already running", db1⟩
      else
        let failWith : Db → String → IdResult := fun dbx e =>
          let t' := updateTranscriptStatus dbx.transcripts transcriptId
            TranscriptStatus.error (some e) now
          ⟨.err 500 e, { dbx with transcripts := releasePipelineLock t' transcriptId now }⟩
        let parasRes : Except String (Option (List RawParagraph)) :=
          match tr.content.raw_paragraphs with
          | some ps => if ps.length = 0 then fetchParagraphs else .ok (some ps)
          | none => fetchParagraphs
        match parasRes with
        | .error e => failWith db1 e
        | .ok parasOpt =>
          match parasOpt with
          | none => failWith db1 "No paragraphs available"
          | some ps =>
            if ps.length = 0 then failWith db1 "No paragraphs available"
            else
              let db2 : Db := { db1 with
                transcripts := updateTranscriptStatus db1.transcripts
                  transcriptId TranscriptStatus.identifying_speakers none now }
              match identify with
              | .error e => failWith db2 e
              | .ok mapping =>
                let db3 := setSpeakerMapping db2 transcriptId mapping
                let db4 : Db := { db3 with
                  transcripts := updateTranscriptStatus db3.transcripts
                    transcriptId TranscriptStatus.completed none now }
                let db5 : Db := { db4 with
                  transcripts := releasePipelineLock db4.transcripts
                    transcriptId now }
                let updated := getTranscriptById db5.transcripts transcriptId
                ⟨.ok mapping ((updated.map (·.content.statements)).getD [])
                    ((updated.bind (·.content.topics)).getD []),
                 db5⟩

/-! ## Speaker classification endpoint (`src/unnamed/part_001`, second file:
the endpoint that prompts the model and persists the mapping) -/

/-- One record of the model's structured response (`ParagraphSpeakerMapping`
schema, `src/unnamed/part_001` lines 76-84). -/
structure ParsedPara where
  index : ℤ
  name : Option String
  function : Option String
  affiliation : Option String
  group : Option String
deriving DecidableEq, Repr

/-- JS object assignment `mapping[k] = v`: overwrite an existing key in
place, else append (insertion order preserved). -/
def upsertMapping (m : SpeakerMapping) (k : String) (v : SpeakerInfo) :
    SpeakerMapping :=
  if m.any fun e => e.1 = k then
    m.map fun e => if e.1 = k then (k, v) else e
  else m ++ [(k, v)]

/-- The mapping built from the parsed response (`src/unnamed/part_001` lines
217-225): one record per returned record, keyed by `index.toString()`. -/
def buildMapping (parsed : List ParsedPara) : SpeakerMapping :=
  parsed.foldl
    (fun m p =>
      upsertMapping m (toString p.index)
        ⟨p.name, p.function, p.affiliation, p.group⟩)
    []

/-- Responses of the classification endpoint. -/
inductive ClassifyResponse where
  | err (status : ℕ) (msg : String)
  | ok (mapping : SpeakerMapping)
deriving DecidableEq, Repr

/-- Outcome of one classification request: response, durable state, and
whether the fewer-records-than-paragraphs warning was logged. -/
structure ClassifyResult where
  resp : ClassifyResponse
  db : Db
  warned : Bool
deriving DecidableEq, Repr

/-- The `POST` handler of the classification endpoint (`src/unnamed/part_001`
lines 86-247).  `completion` is the chat-completion call (`.error` = the call
threw; `.ok` carries `choices[0]?.message?.content`, absent or empty both
being falsy); `parse` is `JSON.parse` on that content (`.error` = it threw).
`transcriptId` is the optional request field; persistence via
`setSpeakerMapping` (spec-modelled, see its doc) happens only when it is
truthy. -/
def classifySpeakersPOST (db : Db) (paragraphs : List RawParagraph)
    (transcriptId : Option String)
    (completion : Except String (Option String))
    (parse : String → Except String (List ParsedPara)) : ClassifyResult :=
  if paragraphs.length = 0 then ⟨.err 400 "No paragraphs provided", db, false⟩
  else
    match completion with
    | .error e => ⟨.err 500 e, db, false⟩
    | .ok contentOpt =>
      match contentOpt with
      | none => ⟨.err 500 "Failed to parse speaker mappings", db, false⟩
      | some s =>
        if s = "" then ⟨.err 500 "Failed to parse speaker mappings", db, false⟩
        else
          match parse s with
          | .error e => ⟨.err 500 e, db, false⟩
          | .ok parsed =>
            let mapping := buildMapping parsed
            let warned := parsed.length < paragraphs.length
            let db' :=
              match transcriptId with
              | some t => if t = "" then db else setSpeakerMapping db t mapping
              | none => db
            ⟨.ok mapping, db', warned⟩

/-! ## UN80 topic tagging (`src/scripts/tag-un80.ts`,
`tagSentencesWithUN80Topics`, lines 145-258)

The script flattens the statement → paragraph → sentence hierarchy into
`allSentences` (lines 171-187), fires one classification call per sentence
indexed by its position `globalIdx` in that flat list, and writes the result
back into the sentence object in place.  The embedding performs the same
per-sentence update functionally, threading the flat index through the
hierarchy. -/

/-- The tag list written to one sentence from its call's outcome (lines
238-248): `(content || '').trim()`; `'none'` (case-insensitive) or an empty
answer, and a thrown call, all yield `[]`; otherwise
`text.split(',').map(trim).filter(Boolean)`. -/
def computeTags (res : Except Unit (Option String)) : List String :=
  match res with
  | .error _ => []
  | .ok c =>
    let text := (c.getD "").trim
    if text.toLower = "none" ∨ text = "" then []
    else ((text.splitOn ",").map (·.trim)).filter (· ≠ "")

/-- Write the tags of call `n` into a sentence. -/
def tagSent (oracle : ℕ → Except Unit (Option String)) (n : ℕ)
    (s : Sentence) : Sentence :=
  { s with un80_topic_keys := some (computeTags (oracle n)) }

/-- Tag a run of sentences whose first element has flat index `base`. -/
def tagSentsFrom (oracle : ℕ → Except Unit (Option String)) (base : ℕ) :
    List Sentence → List Sentence
  | [] => []
  | s :: rest => tagSent oracle base s :: tagSentsFrom oracle (base + 1) rest

/-- Tag the paragraphs of one statement, threading the flat index. -/
def tagParasFrom (oracle : ℕ → Except Unit (Option String)) (base : ℕ) :
    List SentPara → List SentPara
  | [] => []
  | p :: ps =>
    { p with sentences := tagSentsFrom oracle base p.sentences } ::
      tagParasFrom oracle (base + p.sentences.length) ps

/-- Number of sentences in one statement. -/
def stmtSentCount (st : Statement) : ℕ :=
  (st.paragraphs.map fun p => p.sentences.length).sum

/-- Tag a run of statements, threading the flat index. -/
def tagStmtsFrom (oracle : ℕ → Except Unit (Option String)) (base : ℕ) :
    List Statement → List Statement
  | [] => []
  | st :: sts =>
    { st with paragraphs := tagParasFrom oracle base st.paragraphs } ::
      tagStmtsFrom oracle (base + stmtSentCount st) sts

/-- `tagSentencesWithUN80Topics`: every sentence's `un80_topic_keys` is set
from its own call; nothing else of the content changes. -/
def tagSentencesWithUN80Topics (content : Content)
    (oracle : ℕ → Except Unit (Option String)) : Content :=
  { content with statements := tagStmtsFrom oracle 0 content.statements }

/-- The flat sentence list, in statement → paragraph → sentence order (the
order of `allSentences` at lines 171-187). -/
def flatSents (sts : List Statement) : List Sentence :=
  sts.flatMap fun st => st.paragraphs.flatMap fun p => p.sentences

/-- Erase the field the tagging pass writes, to state frame preservation. -/
def stripTags (s : Sentence) : Sentence := { s with un80_topic_keys := none }

/-- `stripTags` lifted to paragraphs. -/
def stripTagsPara (p : SentPara) : SentPara :=
  { p with sentences := p.sentences.map stripTags }

/-- `stripTags` lifted to statements. -/
def stripTagsStmt (st : Statement) : Statement :=
  { st with paragraphs := st.paragraphs.map stripTagsPara }

/-- The guarantee of the locked section of the speaker-identification
trigger: after the handler returns, no row with the transcript id holds the
lock and such a row still exists; a success response implies the row is
`completed` with no error message; an error response is a 500 whose message
is persisted as the row's `error_message` with status `error`. -/
def lockSectionPost (res : IdResult) (tid : String) : Prop :=
  (∀ r ∈ res.db.transcripts, r.transcript_id = tid →
    r.pipeline_lock = none) ∧
  (∃ r ∈ res.db.transcripts, r.transcript_id = tid) ∧
  ((∃ m stmts tops, res.resp = .ok m stmts tops) →
    ∀ r ∈ res.db.transcripts, r.transcript_id = tid →
      r.status = TranscriptStatus.completed ∧ r.error_message = none) ∧
  (∀ s e, res.resp = .err s e →
    s = 500 ∧
    ∀ r ∈ res.db.transcripts, r.transcript_id = tid →
      r.status = TranscriptStatus.error ∧ r.error_message = some e)

/-! ## Witness fixtures: concrete inputs used to instantiate the theorems -/

/-- A concrete transcripts row used by witnesses. -/
def baseRow : Row :=
  { entry_id := "e1", transcript_id := "t1", start_time := none,
    end_time := none, audio_url := "https://a/x.mp3",
    status := TranscriptStatus.completed, language_code := some "en",
    content := {}, pipeline_lock := none, error_message := none,
    created_at := 0, updated_at := 0 }

/-- A concrete raw paragraph used by witnesses. -/
def rawPara1 : RawParagraph :=
  { text := "I call to order the 8th meeting.", start := 0, «end» := 4 }

/-- A transcripts row holding raw paragraphs, ready for attribution. -/
def idRow : Row :=
  { baseRow with status := TranscriptStatus.transcribed,
                 content := { raw_paragraphs := some [rawPara1] } }

/-- A database with the single row `idRow`. -/
def wIdDb : Db := ⟨[idRow], [], []⟩

/-- A concrete speaker record used by witnesses. -/
def wInfo : SpeakerInfo := ⟨none, some "Chair", some "5th Committee", none⟩

/-- A concrete sentence used by witnesses. -/
def sent1 : Sentence := { text := "Hello.", start := 0, «end» := 1 }

/-- A concrete statement paragraph used by witnesses. -/
def para1 : SentPara := { sentences := [sent1], start := 0, «end» := 1 }

/-- A one-sentence statement used by witnesses. -/
def stmt1 : Statement := { paragraphs := [para1], start := 0, «end» := 1 }

/-- A completed transcripts row with populated statements. -/
def cachedRow : Row :=
  { baseRow with content := { statements := [stmt1], topics := some [] } }

/-- A database holding `cachedRow` and its speaker mapping. -/
def wCacheDb : Db := ⟨[cachedRow], [("t1", [("0", wInfo)])], []⟩

/-- A concrete audio-resolution result for an on-demand asset. -/
def wResolve : ResolveResult :=
  { entryId := "e1", audioUrl := "https://a/x.mp3", flavorParamId := "f7",
    isLiveStream := false }

/-- A concrete poll result used where the handler polls. -/
def wPoll : PollResult := ⟨"transcribing", none, none, none⟩

/-- The row the transcription handler inserts on a fresh submission
(`saveTranscript`'s insert branch for the call at `transcribe/route.ts`
lines 88-94). -/
def freshRow (entryId tid : String) (st et : Option ℚ) (audioUrl : String)
    (now : ℚ) : Row :=
  { entry_id := entryId, transcript_id := tid, start_time := st,
    end_time := et, audio_url := audioUrl,
    status := TranscriptStatus.transcribing, language_code := none,
    content := ⟨none, [], some [], none⟩, pipeline_lock := none,
    error_message := none, created_at := now, updated_at := now }

/-- The empty database. -/
def emptyDb : Db := ⟨[], [], []⟩

/-- Completed segment rows used by the gap-analysis witnesses. -/
def segRow (st et : Option ℚ) : Row :=
  { baseRow with start_time := st, end_time := et }

/-- Ordering of coerced segment intervals: nondecreasing starts and ends
(the sorted-by-start, no-nesting shape). -/
def segLE (a b : ℚ × ℚ) : Prop := a.1 ≤ b.1 ∧ a.2 ≤ b.2

instance (a b : ℚ × ℚ) : Decidable (segLE a b) := by
  unfold segLE
  infer_instance

/-- Indexed sentences used by the tagging witness. -/
def wSent (i : ℕ) : Sentence :=
  { text := "s" ++ toString i, start := 0, «end» := 1 }

/-- First paragraph of the tagging witness (sentences 0-4). -/
def wParaA : SentPara :=
  { sentences := [wSent 0, wSent 1, wSent 2, wSent 3, wSent 4], start := 0,
    «end» := 5 }

/-- Second paragraph of the tagging witness (sentences 5-9). -/
def wParaB : SentPara :=
  { sentences := [wSent 5, wSent 6, wSent 7, wSent 8, wSent 9], start := 5,
    «end» := 10 }

/-- A ten-sentence statement for the tagging witness. -/
def wTagStmt : Statement :=
  { paragraphs := [wParaA, wParaB], start := 0, «end» := 10 }

/-- Transcript content holding the ten-sentence statement. -/
def wTagContent : Content := { statements := [wTagStmt] }

/-- A tagging oracle that fails on sentences 3 and 7 and answers `"74a"`
elsewhere. -/
def wOracle : ℕ → Except Unit (Option String) :=
  fun n => if n = 3 ∨ n = 7 then .error () else .ok (some "74a")

/-- A parsed speaker record used by the classification witness. -/
def wParsed : ParsedPara := ⟨0, none, some "Chair", some "5th Committee", none⟩

/-! ## Theorems -/

/-- **C1.** For every call to `tryAcquirePipelineLock(transcriptId)` on an
existing transcript row, the call returns true and overwrites
`pipeline_lock` with the current timestamp if and only if, at call time, the
row's `pipeline_lock` is NULL or holds a timestamp more than 30 minutes
(1 800 000 ms) in the past; otherwise it returns false and leaves
`pipeline_lock` (indeed the whole table) unchanged. -/
theorem claim_C1 (db : List Row) (tid : String) (now : ℚ) (r : Row)
    (hmem : r ∈ db) (hid : r.transcript_id = tid)
    (huniq : ∀ r' ∈ db, r'.transcript_id = tid → r' = r) :
    ((tryAcquirePipelineLock db tid now).2 = true ↔
      (r.pipeline_lock = none ∨
        ∃ t, r.pipeline_lock = some t ∧ t < now - 30 * 60 * 1000)) ∧
    (lockFree r now →
      ∀ r' ∈ (tryAcquirePipelineLock db tid now).1, r'.transcript_id = tid →
        r' = { r with pipeline_lock := some now, updated_at := now }) ∧
    (¬ lockFree r now → (tryAcquirePipelineLock db tid now).1 = db) := by
  have hlf : (r.pipeline_lock = none ∨
      ∃ t, r.pipeline_lock = some t ∧ t < now - 30 * 60 * 1000) ↔
      lockFree r now := by
    unfold lockFree PIPELINE_LOCK_TIMEOUT_MS
    norm_num
  refine ⟨?_, ?_, ?_⟩
  · rw [hlf]
    unfold tryAcquirePipelineLock
    simp only [List.any_eq_true, decide_eq_true_eq]
    constructor
    · rintro ⟨x, hx, hxid, hxfree⟩
      exact huniq x hx hxid ▸ hxfree
    · intro hfree
      exact ⟨r, hmem, hid, hfree⟩
  · intro hfree r' hmem' hrid
    unfold tryAcquirePipelineLock at hmem'
    rcases List.mem_map.mp hmem' with ⟨x, hx, hfx⟩
    by_cases hPx : x.transcript_id = tid ∧ lockFree x now
    · rw [if_pos hPx] at hfx
      rw [huniq x hx hPx.1] at hfx
      exact hfx.symm
    · rw [if_neg hPx] at hfx
      subst hfx
      have hxr : x = r := huniq x hx hrid
      subst hxr
      exact absurd ⟨hid, hfree⟩ hPx
  · intro hnfree
    unfold tryAcquirePipelineLock
    have hstep : ∀ x ∈ db,
        (if x.transcript_id = tid ∧ lockFree x now then
          { x with pipeline_lock := some now, updated_at := now }
        else x) = id x := by
      intro x hx
      rw [if_neg]
      · rfl
      · rintro ⟨hxid, hxfree⟩
        exact hnfree (huniq x hx hxid ▸ hxfree)
    rw [List.map_congr_left hstep, List.map_id]

/-- Witness for C1: a lock stamped at time 0 is re-acquirable at
`now = 1 800 001` (30 minutes and 1 ms later) but not at `now = 600 000`
(10 minutes later). -/
theorem claim_C1_witness :
    (tryAcquirePipelineLock [{ baseRow with pipeline_lock := some 0 }]
        "t1" 1800001).2 = true ∧
    (tryAcquirePipelineLock [{ baseRow with pipeline_lock := some 0 }]
        "t1" 600000).2 = false := by
  constructor
  · exact (claim_C1 _ "t1" 1800001 { baseRow with pipeline_lock := some 0 }
      (List.mem_singleton.mpr rfl) rfl
      (fun r' h _ => List.mem_singleton.mp h)).1.mpr
      (Or.inr ⟨0, rfl, by norm_num⟩)
  · have h := (claim_C1 [{ baseRow with pipeline_lock := some 0 }] "t1" 600000
      { baseRow with pipeline_lock := some 0 } (List.mem_singleton.mpr rfl) rfl
      (fun r' h _ => List.mem_singleton.mp h)).1
    cases hb : (tryAcquirePipelineLock [{ baseRow with pipeline_lock := some 0 }]
        "t1" 600000).2 with
    | false => rfl
    | true =>
      rcases h.mp hb with hnone | ⟨t, ht, hlt⟩
      · simp at hnone
      · have ht0 : t = (0 : ℚ) := by
          have : (some (0 : ℚ)) = some t := ht
          exact (Option.some_inj.mp this).symm
        rw [ht0] at hlt
        norm_num at hlt

/-- **C9.** Calling `saveTranscript` with a `transcript_id` that already
exists updates only that row's `status`, `language_code`, `content` and
`updated_at`; `entry_id`, `start_time`, `end_time`, `audio_url`,
`created_at`, `pipeline_lock` and `error_message` keep their previous values
even when the call passes different values for those parameters, no row is
added, and rows with other ids survive unchanged. -/
theorem claim_C9 (db : List Row) (tid : String) (r : Row)
    (hmem : r ∈ db) (hid : r.transcript_id = tid)
    (huniq : ∀ r' ∈ db, r'.transcript_id = tid → r' = r)
    (entryId : String) (st et : Option ℚ) (audioUrl : String)
    (status : TranscriptStatus) (lang : Option String) (content : Content)
    (now : ℚ) :
    (saveTranscript db entryId tid st et audioUrl status lang content
        now).length = db.length ∧
    (∀ r' ∈ saveTranscript db entryId tid st et audioUrl status lang content
        now, r'.transcript_id = tid →
      r'.entry_id = r.entry_id ∧ r'.start_time = r.start_time ∧
      r'.end_time = r.end_time ∧ r'.audio_url = r.audio_url ∧
      r'.created_at = r.created_at ∧ r'.pipeline_lock = r.pipeline_lock ∧
      r'.error_message = r.error_message ∧
      r'.status = status ∧ r'.language_code = lang ∧
      r'.content = content ∧ r'.updated_at = now) ∧
    (∀ r' ∈ db, r'.transcript_id ≠ tid →
      r' ∈ saveTranscript db entryId tid st et audioUrl status lang content
        now) := by
  have hany : (db.any fun r' => r'.transcript_id = tid) = true :=
    List.any_eq_true.mpr ⟨r, hmem, decide_eq_true hid⟩
  unfold saveTranscript
  rw [if_pos hany]
  refine ⟨List.length_map _ _, ?_, ?_⟩
  · intro r' hmem' hrid
    rcases List.mem_map.mp hmem' with ⟨x, hx, hfx⟩
    by_cases hPx : x.transcript_id = tid
    · rw [if_pos hPx] at hfx
      subst hfx
      have hxr : x = r := huniq x hx hPx
      subst hxr
      exact ⟨rfl, rfl, rfl, rfl, rfl, rfl, rfl, rfl, rfl, rfl, rfl⟩
    · rw [if_neg hPx] at hfx
      subst hfx
      exact absurd hrid hPx
  · intro r' hmem' hrid
    have : (if r'.transcript_id = tid then
        { r' with status := status, language_code := lang,
                  content := content, updated_at := now }
      else r') = r' := if_neg hrid
    exact this ▸ List.mem_map_of_mem _ hmem'

/-- Witness for C9: overwriting an existing row with a different entry id,
range, audio url and status keeps the identity fields and replaces the
mutable ones. -/
theorem claim_C9_witness :
    (saveTranscript [baseRow] "other-entry" "t1" (some 5) (some 9) "u2"
        TranscriptStatus.error (some "fr") {} 42).length = 1 ∧
    ∀ r' ∈ saveTranscript [baseRow] "other-entry" "t1" (some 5) (some 9) "u2"
        TranscriptStatus.error (some "fr") {} 42, r'.transcript_id = "t1" →
      r'.entry_id = "e1" ∧ r'.start_time = none ∧
      r'.status = TranscriptStatus.error ∧ r'.updated_at = 42 := by
  have h := claim_C9 [baseRow] "t1" baseRow (List.mem_singleton.mpr rfl) rfl
    (fun r' hr _ => List.mem_singleton.mp hr) "other-entry" (some 5) (some 9)
    "u2" TranscriptStatus.error (some "fr") {} 42
  refine ⟨h.1, fun r' hmem' hrid => ?_⟩
  obtain ⟨he, hst, -, -, -, -, -, hs, -, -, hu⟩ := h.2.1 r' hmem' hrid
  exact ⟨he, hst, hs, hu⟩

/-- **C10.** Forced re-creation purges only the `transcripts` table:
`deleteTranscriptsForEntry` removes every `transcripts` row for the resource
id but never touches `speaker_mappings`, so speaker-mapping rows keyed by
the deleted transcript ids remain stored (orphaned); the `videos` table is
likewise unchanged.  Moreover a whole forced request through the
transcription endpoint leaves `speaker_mappings` and `videos` untouched. -/
theorem claim_C10 (db : Db) (entryId : String) :
    ((deleteTranscriptsForEntry db entryId).speaker_mappings =
        db.speaker_mappings ∧
      (deleteTranscriptsForEntry db entryId).videos = db.videos ∧
      (∀ r ∈ (deleteTranscriptsForEntry db entryId).transcripts,
        r.entry_id ≠ entryId) ∧
      (∀ r ∈ db.transcripts, r.entry_id ≠ entryId →
        r ∈ (deleteTranscriptsForEntry db entryId).transcripts) ∧
      (∀ m ∈ db.speaker_mappings, ∀ r ∈ db.transcripts,
        r.entry_id = entryId → m.1 = r.transcript_id →
          m ∈ (deleteTranscriptsForEntry db entryId).speaker_mappings ∧
          r ∉ (deleteTranscriptsForEntry db entryId).transcripts)) ∧
    ∀ (kalturaId : String) (checkOnly : Bool) (startTime endTime : Option ℚ)
      (resolve : Except String ResolveResult)
      (submitRes : Except String String) (poll : String → PollResult)
      (hlsRes : Except String String) (now : ℚ),
      (transcribePOST db kalturaId checkOnly true startTime endTime resolve
          submitRes poll hlsRes now).db.speaker_mappings =
        db.speaker_mappings ∧
      (transcribePOST db kalturaId checkOnly true startTime endTime resolve
          submitRes poll hlsRes now).db.videos = db.videos := by
  constructor
  · refine ⟨rfl, rfl, ?_, ?_, ?_⟩
    · intro r hr
      have := List.of_mem_filter hr
      simpa using this
    · intro r hr hne
      exact List.mem_filter.mpr ⟨hr, by simpa using hne⟩
    · intro m hm r hr hre hmr
      refine ⟨hm, fun hcontra => ?_⟩
      have := List.of_mem_filter hcontra
      simp only [decide_eq_true_eq] at this
      exact this hre
  · intro kalturaId checkOnly startTime endTime resolve submitRes poll hlsRes
      now
    unfold transcribePOST
    by_cases hk : kalturaId = ""
    · rw [if_pos hk]
      exact ⟨rfl, rfl⟩
    · rw [if_neg hk]
      cases resolve with
      | error e => exact ⟨rfl, rfl⟩
      | ok rr =>
        simp only [if_pos]
        by_cases hc : checkOnly
        · rw [if_pos hc]
          exact ⟨rfl, rfl⟩
        · rw [if_neg hc]
          by_cases hl : rr.isLiveStream
          · rw [if_pos hl]
            cases hlsRes with
            | error e => exact ⟨rfl, rfl⟩
            | ok u =>
              cases submitRes with
              | error e => exact ⟨rfl, rfl⟩
              | ok tid => exact ⟨rfl, rfl⟩
          · rw [if_neg hl]
            cases submitRes with
            | error e => exact ⟨rfl, rfl⟩
            | ok tid => exact ⟨rfl, rfl⟩

/-- Mapping an id-preserving row function keeps a row with the wanted
transcript id in the table. -/
theorem exists_id_map (l : List Row) (f : Row → Row) (tid : String)
    (hf : ∀ x, (f x).transcript_id = x.transcript_id)
    (h : ∃ x ∈ l, x.transcript_id = tid) :
    ∃ y ∈ l.map f, y.transcript_id = tid := by
  rcases h with ⟨x, hx, hxid⟩
  exact ⟨f x, List.mem_map_of_mem f hx, (hf x).trans hxid⟩

/-- After `updateTranscriptStatus` followed by `releasePipelineLock` on the
same transcript id, every row with that id has no lock and carries the
written status and error message, and such a row still exists. -/
theorem release_after_update (L : List Row) (tid : String)
    (st : TranscriptStatus) (msg : Option String) (now : ℚ)
    (hex : ∃ x ∈ L, x.transcript_id = tid) :
    (∀ r ∈ releasePipelineLock
        (updateTranscriptStatus L tid st msg now) tid now,
      r.transcript_id = tid →
        r.pipeline_lock = none ∧ r.status = st ∧ r.error_message = msg) ∧
    (∃ r ∈ releasePipelineLock
        (updateTranscriptStatus L tid st msg now) tid now,
      r.transcript_id = tid) := by
  constructor
  · intro r hr hrid
    unfold releasePipelineLock at hr
    rcases List.mem_map.mp hr with ⟨y, hy, hfy⟩
    unfold updateTranscriptStatus at hy
    rcases List.mem_map.mp hy with ⟨x, _, hfx⟩
    by_cases hPx : x.transcript_id = tid
    · rw [if_pos hPx] at hfx
      subst hfx
      rw [if_pos hPx] at hfy
      subst hfy
      exact ⟨rfl, rfl, rfl⟩
    · rw [if_neg hPx] at hfx
      subst hfx
      rw [if_neg hPx] at hfy
      subst hfy
      exact absurd hrid hPx
  · refine exists_id_map _ _ _ (fun x => ?_) (exists_id_map _ _ _ (fun x => ?_) hex) <;>
      · dsimp only
        split <;> rfl


/-- The transcript id of a row is never changed by the conditional update of
`tryAcquirePipelineLock`, so a row with the wanted id survives it. -/
theorem exists_id_tryAcquire (l : List Row) (tid : String) (now : ℚ)
    (h : ∃ x ∈ l, x.transcript_id = tid) :
    ∃ y ∈ (tryAcquirePipelineLock l tid now).1, y.transcript_id = tid := by
  rcases h with ⟨x, hx, hxid⟩
  refine ⟨_, List.mem_map_of_mem _ hx, ?_⟩
  dsimp only
  split <;> exact hxid

/-- A row with the wanted id survives `updateTranscriptStatus`. -/
theorem exists_id_updateStatus (l : List Row) (tid : String)
    (st : TranscriptStatus) (msg : Option String) (now : ℚ)
    (h : ∃ x ∈ l, x.transcript_id = tid) :
    ∃ y ∈ updateTranscriptStatus l tid st msg now,
      y.transcript_id = tid := by
  rcases h with ⟨x, hx, hxid⟩
  refine ⟨_, List.mem_map_of_mem _ hx, ?_⟩
  dsimp only
  split <;> exact hxid

/-- Error-exit shape of the locked section: status `error` with the message,
lock released, 500 response. -/
theorem lockSectionPost_err (dbx : Db) (tid e : String) (now : ℚ)
    (hex : ∃ x ∈ dbx.transcripts, x.transcript_id = tid) :
    lockSectionPost
      ⟨.err 500 e,
       { dbx with
          transcripts := (releasePipelineLock
            (updateTranscriptStatus dbx.transcripts tid
              TranscriptStatus.error (some e) now) tid now) }⟩ tid := by
  obtain ⟨hall, hexists⟩ :=
    release_after_update dbx.transcripts tid TranscriptStatus.error (some e)
      now hex
  refine ⟨fun r hr hrid => (hall r hr hrid).1, hexists, ?_, ?_⟩
  · rintro ⟨m, stmts, tops, hresp⟩
    exact IdResponse.noConfusion hresp
  · intro s e' hresp
    obtain ⟨hs, he⟩ := IdResponse.err.inj hresp
    subst hs
    subst he
    exact ⟨rfl, fun r hr hrid => ⟨(hall r hr hrid).2.1, (hall r hr hrid).2.2⟩⟩

/-- Success-exit shape of the locked section: status `completed`, lock
released, mapping returned. -/
theorem lockSectionPost_ok (dbx : Db) (tid : String) (m : SpeakerMapping)
    (stmts : List Statement) (tops : List (String × TopicDef)) (now : ℚ)
    (hex : ∃ x ∈ dbx.transcripts, x.transcript_id = tid) :
    lockSectionPost
      ⟨.ok m stmts tops,
       { dbx with
          transcripts := (releasePipelineLock
            (updateTranscriptStatus dbx.transcripts tid
              TranscriptStatus.completed none now) tid now) }⟩ tid := by
  obtain ⟨hall, hexists⟩ :=
    release_after_update dbx.transcripts tid TranscriptStatus.completed none
      now hex
  refine ⟨fun r hr hrid => (hall r hr hrid).1, hexists, ?_, ?_⟩
  · rintro -
    exact fun r hr hrid => ⟨(hall r hr hrid).2.1, (hall r hr hrid).2.2⟩
  · intro s e' hresp
    exact IdResponse.noConfusion hresp

/-- **C2.** In the speaker-identification trigger endpoint, once the pipeline
lock has been acquired, every exit path of the locked section releases it:
on attribution success the transcript status is set to `completed` and the
lock is released; if any step inside the locked section fails (the paragraph
fetch, missing paragraphs, or the attribution call), the transcript status
is set to `error` with the error message, the lock is released, and the
caller receives an error response carrying that message.  The lock is never
left held after the handler returns. -/
theorem claim_C2 (db : Db) (tid : String)
    (fetchParagraphs : Except String (Option (List RawParagraph)))
    (identify : Except String SpeakerMapping) (now : ℚ)
    (h0 : tid ≠ "") (tr : Row)
    (hfind : getTranscriptById db.transcripts tid = some tr)
    (hacq : (tryAcquirePipelineLock db.transcripts tid now).2 = true) :
    lockSectionPost (identifySpeakersPOST db tid fetchParagraphs identify now)
      tid := by
  have htrmem : tr ∈ db.transcripts := List.mem_of_find?_eq_some hfind
  have htrid : tr.transcript_id = tid := by
    have := List.find?_some hfind
    simpa using this
  have hex1 : ∃ x ∈ (tryAcquirePipelineLock db.transcripts tid now).1,
      x.transcript_id = tid :=
    exists_id_tryAcquire _ _ _ ⟨tr, htrmem, htrid⟩
  have hex2 : ∃ x ∈ updateTranscriptStatus
      (tryAcquirePipelineLock db.transcripts tid now).1 tid
      TranscriptStatus.identifying_speakers none now,
      x.transcript_id = tid :=
    exists_id_updateStatus _ _ _ _ _ hex1
  unfold identifySpeakersPOST
  rw [if_neg h0, hfind]
  simp only [hacq, reduceIte]
  rcases hpar : tr.content.raw_paragraphs with - | ps
  · simp only [hpar]
    rcases fetchParagraphs with e | parasOpt
    · exact lockSectionPost_err
        { db with transcripts := (tryAcquirePipelineLock db.transcripts tid
            now).1 } tid e now hex1
    · rcases parasOpt with - | qs
      · exact lockSectionPost_err
          { db with transcripts := (tryAcquirePipelineLock db.transcripts tid
              now).1 } tid _ now hex1
      · by_cases hq : qs.length = 0
        · simp only [if_pos hq]
          exact lockSectionPost_err
            { db with transcripts := (tryAcquirePipelineLock db.transcripts
                tid now).1 } tid _ now hex1
        · simp only [if_neg hq]
          rcases identify with e | mapping
          · exact lockSectionPost_err
              { db with transcripts := (updateTranscriptStatus
                  (tryAcquirePipelineLock db.transcripts tid now).1 tid
                  TranscriptStatus.identifying_speakers none now) }
              tid e now hex2
          · exact lockSectionPost_ok
              (setSpeakerMapping
                { db with transcripts := (updateTranscriptStatus
                    (tryAcquirePipelineLock db.transcripts tid now).1 tid
                    TranscriptStatus.identifying_speakers none now) }
                tid mapping)
              tid mapping _ _ now hex2
  · simp only [hpar]
    by_cases hp : ps.length = 0
    · simp only [if_pos hp]
      rcases fetchParagraphs with e | parasOpt
      · exact lockSectionPost_err
          { db with transcripts := (tryAcquirePipelineLock db.transcripts tid
              now).1 } tid e now hex1
      · rcases parasOpt with - | qs
        · exact lockSectionPost_err
            { db with transcripts := (tryAcquirePipelineLock db.transcripts
                tid now).1 } tid _ now hex1
        · by_cases hq : qs.length = 0
          · simp only [if_pos hq]
            exact lockSectionPost_err
              { db with transcripts := (tryAcquirePipelineLock db.transcripts
                  tid now).1 } tid _ now hex1
          · simp only [if_neg hq]
            rcases identify with e | mapping
            · exact lockSectionPost_err
                { db with transcripts := (updateTranscriptStatus
                    (tryAcquirePipelineLock db.transcripts tid now).1 tid
                    TranscriptStatus.identifying_speakers none now) }
                tid e now hex2
            · exact lockSectionPost_ok
                (setSpeakerMapping
                  { db with transcripts := (updateTranscriptStatus
                      (tryAcquirePipelineLock db.transcripts tid now).1 tid
                      TranscriptStatus.identifying_speakers none now) }
                  tid mapping)
                tid mapping _ _ now hex2
    · simp only [if_neg hp]
      rcases identify with e | mapping
      · exact lockSectionPost_err
          { db with transcripts := (updateTranscriptStatus
              (tryAcquirePipelineLock db.transcripts tid now).1 tid
              TranscriptStatus.identifying_speakers none now) }
          tid e now hex2
      · exact lockSectionPost_ok
          (setSpeakerMapping
            { db with transcripts := (updateTranscriptStatus
                (tryAcquirePipelineLock db.transcripts tid now).1 tid
                TranscriptStatus.identifying_speakers none now) }
            tid mapping)
          tid mapping _ _ now hex2

/-- Witness for C2: triggering attribution on a stored transcript with one
raw paragraph and a successful classification satisfies the locked-section
guarantee. -/
theorem claim_C2_witness :
    lockSectionPost
      (identifySpeakersPOST wIdDb "t1" (.ok none) (.ok [("0", wInfo)]) 5)
      "t1" :=
  claim_C2 wIdDb "t1" (.ok none) (.ok [("0", wInfo)]) 5 (by decide) idRow
    (by decide) (by decide)

/-- Cache-hit reduction of the transcription handler: no `force`, a stored
row for the key, `completed` with populated statements. -/
theorem transcribe_cacheHit_eq (db : Db) (k : String) (cO : Bool)
    (st et : Option ℚ) (rr : ResolveResult) (sub : Except String String)
    (poll : String → PollResult) (hls : Except String String) (now : ℚ)
    (r : Row) (hk : k ≠ "")
    (hlookup : getTranscript db.transcripts rr.entryId
      (if st.isSome && et.isSome then st else none)
      (if st.isSome && et.isSome then et else none) false = some r)
    (hst : r.status = TranscriptStatus.completed)
    (hne : 0 < r.content.statements.length) :
    transcribePOST db k cO false st et (.ok rr) sub poll hls now =
      ⟨.cacheHit r.content.statements (r.content.topics.getD [])
          ((getSpeakerMapping db r.transcript_id).getD [])
          r.language_code r.transcript_id,
        db, false, false⟩ := by
  unfold transcribePOST
  rw [if_neg hk]
  dsimp only
  rw [if_neg Bool.false_ne_true]
  rw [hlookup]
  dsimp only
  rw [if_pos (show r.status = TranscriptStatus.completed ∧
    0 < r.content.statements.length from ⟨hst, hne⟩)]

/-- Resume-by-polling reduction of the transcription handler: no `force`, a
stored row for the key that is neither a populated `completed` cache hit nor
`error`. -/
theorem transcribe_poll_eq (db : Db) (k : String) (cO : Bool)
    (st et : Option ℚ) (rr : ResolveResult) (sub : Except String String)
    (poll : String → PollResult) (hls : Except String String) (now : ℚ)
    (r : Row) (hk : k ≠ "")
    (hlookup : getTranscript db.transcripts rr.entryId
      (if st.isSome && et.isSome then st else none)
      (if st.isSome && et.isSome then et else none) false = some r)
    (hncache : ¬(r.status = TranscriptStatus.completed ∧
      0 < r.content.statements.length))
    (hnerr : r.status ≠ TranscriptStatus.error) :
    transcribePOST db k cO false st et (.ok rr) sub poll hls now =
      ⟨.inFlight r.transcript_id (poll r.transcript_id).stage
          (poll r.transcript_id).raw_paragraphs
          (poll r.transcript_id).statements (poll r.transcript_id).topics,
        db, false, true⟩ := by
  unfold transcribePOST
  rw [if_neg hk]
  dsimp only
  rw [if_neg Bool.false_ne_true]
  rw [hlookup]
  dsimp only
  rw [if_neg hncache, if_pos hnerr]

/-- Fresh-submission reduction of the transcription handler: no `force`, no
stored row for the key, not check-only, an on-demand (non-live) stream and a
successful upstream submission.  The handler stores a `transcribing` row
with empty statements under the submitted transcript id. -/
theorem transcribe_submit_eq (db : Db) (k : String) (st et : Option ℚ)
    (rr : ResolveResult) (tid : String) (poll : String → PollResult)
    (hls : Except String String) (now : ℚ) (hk : k ≠ "")
    (hlookup : getTranscript db.transcripts rr.entryId
      (if st.isSome && et.isSome then st else none)
      (if st.isSome && et.isSome then et else none) false = none)
    (hlive : rr.isLiveStream = false) :
    transcribePOST db k false false st et (.ok rr) (.ok tid) poll hls now =
      ⟨.submittedNew tid,
        { db with transcripts := (saveTranscript db.transcripts rr.entryId
            tid (if st.isSome && et.isSome then st else none)
            (if st.isSome && et.isSome then et else none) rr.audioUrl
            TranscriptStatus.transcribing none ⟨none, [], some [], none⟩
            now) },
        true, false⟩ := by
  unfold transcribePOST
  rw [if_neg hk]
  dsimp only
  rw [if_neg Bool.false_ne_true]
  rw [hlookup]
  dsimp only
  rw [if_neg Bool.false_ne_true]
  rw [hlive]
  rw [if_neg Bool.false_ne_true]

/-- **C6.** A submit-transcription request without `force` whose stored
transcript for the `(entryId, timeRange)` key is `completed` with a
non-empty statements array returns the stored statements, topics, speaker
mappings, `cached:true` (the cache-hit response) and that row's transcript
id, changes no durable state (in particular it acquires no pipeline lock and
modifies no transcript row), and neither submits to nor polls the
transcription service. -/
theorem claim_C6 (db : Db) (k : String) (cO : Bool) (st et : Option ℚ)
    (rr : ResolveResult) (sub : Except String String)
    (poll : String → PollResult) (hls : Except String String) (now : ℚ)
    (r : Row) (hk : k ≠ "")
    (hlookup : getTranscript db.transcripts rr.entryId
      (if st.isSome && et.isSome then st else none)
      (if st.isSome && et.isSome then et else none) false = some r)
    (hst : r.status = TranscriptStatus.completed)
    (hne : 0 < r.content.statements.length) :
    (transcribePOST db k cO false st et (.ok rr) sub poll hls now).resp =
      .cacheHit r.content.statements (r.content.topics.getD [])
        ((getSpeakerMapping db r.transcript_id).getD [])
        r.language_code r.transcript_id ∧
    (transcribePOST db k cO false st et (.ok rr) sub poll hls now).db = db ∧
    (transcribePOST db k cO false st et (.ok rr) sub poll hls
      now).submitted = false ∧
    (transcribePOST db k cO false st et (.ok rr) sub poll hls
      now).polled = false := by
  rw [transcribe_cacheHit_eq db k cO st et rr sub poll hls now r hk hlookup
    hst hne]
  exact ⟨rfl, rfl, rfl, rfl⟩

/-- Witness for C6: a request for the fully cached `cachedRow` returns the
stored statements and mapping without any effect. -/
theorem claim_C6_witness :
    (transcribePOST wCacheDb "k1" false false none none (.ok wResolve)
      (.ok "t9") (fun _ => wPoll) (.ok "u") 7).resp =
      .cacheHit cachedRow.content.statements
        (cachedRow.content.topics.getD [])
        ((getSpeakerMapping wCacheDb cachedRow.transcript_id).getD [])
        cachedRow.language_code cachedRow.transcript_id ∧
    (transcribePOST wCacheDb "k1" false false none none (.ok wResolve)
      (.ok "t9") (fun _ => wPoll) (.ok "u") 7).db = wCacheDb ∧
    (transcribePOST wCacheDb "k1" false false none none (.ok wResolve)
      (.ok "t9") (fun _ => wPoll) (.ok "u") 7).submitted = false ∧
    (transcribePOST wCacheDb "k1" false false none none (.ok wResolve)
      (.ok "t9") (fun _ => wPoll) (.ok "u") 7).polled = false :=
  claim_C6 wCacheDb "k1" false none none wResolve (.ok "t9") (fun _ => wPoll)
    (.ok "u") 7 cachedRow (by decide) (by decide) (by decide) (by decide)

/-- **C3.** Submitting transcription twice for the same
`(resourceId, timeRange)` key without `force` yields the same transcript
identifier both times and performs no second upstream submission: whenever
the store holds a transcript for the key with status other than `error`,
the request returns that transcript's id (as a cache hit or by polling the
existing job) without submitting; an upstream submission happens only when
no row exists for the key, the found row has status `error`, or `force` is
set; and a fresh submission followed by an identical request returns the
id issued by the first. -/
theorem claim_C3 :
    (∀ (db : Db) (k : String) (cO : Bool) (st et : Option ℚ)
      (rr : ResolveResult) (sub : Except String String)
      (poll : String → PollResult) (hls : Except String String) (now : ℚ)
      (r : Row), k ≠ "" →
      getTranscript db.transcripts rr.entryId
        (if st.isSome && et.isSome then st else none)
        (if st.isSome && et.isSome then et else none) false = some r →
      r.status ≠ TranscriptStatus.error →
      respTranscriptId (transcribePOST db k cO false st et (.ok rr) sub poll
          hls now).resp = some r.transcript_id ∧
        (transcribePOST db k cO false st et (.ok rr) sub poll hls
          now).submitted = false) ∧
    (∀ (db : Db) (k : String) (cO force : Bool) (st et : Option ℚ)
      (rr : ResolveResult) (sub : Except String String)
      (poll : String → PollResult) (hls : Except String String) (now : ℚ),
      k ≠ "" →
      (transcribePOST db k cO force st et (.ok rr) sub poll hls
        now).submitted = true →
      force = true ∨
        getTranscript db.transcripts rr.entryId
          (if st.isSome && et.isSome then st else none)
          (if st.isSome && et.isSome then et else none) false = none ∨
        (∃ r, getTranscript db.transcripts rr.entryId
          (if st.isSome && et.isSome then st else none)
          (if st.isSome && et.isSome then et else none) false = some r ∧
          r.status = TranscriptStatus.error)) ∧
    (∀ (db : Db) (k : String) (st et : Option ℚ) (rr : ResolveResult)
      (tid : String) (sub2 : Except String String)
      (poll poll2 : String → PollResult) (hls hls2 : Except String String)
      (now now2 : ℚ), k ≠ "" → rr.isLiveStream = false →
      (∀ r ∈ db.transcripts, ¬ keyMatch rr.entryId
        (if st.isSome && et.isSome then st else none)
        (if st.isSome && et.isSome then et else none) false r) →
      (∀ r ∈ db.transcripts, r.transcript_id ≠ tid) →
      (transcribePOST db k false false st et (.ok rr) (.ok tid) poll hls
        now).resp = .submittedNew tid ∧
      respTranscriptId (transcribePOST
        (transcribePOST db k false false st et (.ok rr) (.ok tid) poll hls
          now).db k false false st et (.ok rr) sub2 poll2 hls2
        now2).resp = some tid ∧
      (transcribePOST
        (transcribePOST db k false false st et (.ok rr) (.ok tid) poll hls
          now).db k false false st et (.ok rr) sub2 poll2 hls2
        now2).submitted = false) := by
  refine ⟨?_, ?_, ?_⟩
  · intro db k cO st et rr sub poll hls now r hk hlookup hnerr
    by_cases hcase : r.status = TranscriptStatus.completed ∧
      0 < r.content.statements.length
    · rw [transcribe_cacheHit_eq db k cO st et rr sub poll hls now r hk
        hlookup hcase.1 hcase.2]
      exact ⟨rfl, rfl⟩
    · rw [transcribe_poll_eq db k cO st et rr sub poll hls now r hk hlookup
        hcase hnerr]
      exact ⟨rfl, rfl⟩
  · intro db k cO force st et rr sub poll hls now hk hsub
    cases force with
    | true => exact Or.inl rfl
    | false =>
      rcases hlook : getTranscript db.transcripts rr.entryId
        (if st.isSome && et.isSome then st else none)
        (if st.isSome && et.isSome then et else none) false with - | r
      · exact Or.inr (Or.inl rfl)
      · by_cases hcase : r.status = TranscriptStatus.completed ∧
          0 < r.content.statements.length
        · rw [transcribe_cacheHit_eq db k cO st et rr sub poll hls now r hk
            hlook hcase.1 hcase.2] at hsub
          simp at hsub
        · by_cases herr : r.status = TranscriptStatus.error
          · exact Or.inr (Or.inr ⟨r, rfl, herr⟩)
          · rw [transcribe_poll_eq db k cO st et rr sub poll hls now r hk
              hlook hcase herr] at hsub
            simp at hsub
  · intro db k st et rr tid sub2 poll poll2 hls hls2 now now2 hk hlive hnokey
      hnotid
    have hfil : (db.transcripts.filter fun r =>
        keyMatch rr.entryId
          (if st.isSome && et.isSome then st else none)
          (if st.isSome && et.isSome then et else none) false r) = [] := by
      rw [List.filter_eq_nil_iff]
      intro a ha
      simpa using hnokey a ha
    have hnone : getTranscript db.transcripts rr.entryId
        (if st.isSome && et.isSome then st else none)
        (if st.isSome && et.isSome then et else none) false = none := by
      unfold getTranscript
      rw [hfil]
      rfl
    have h1 := transcribe_submit_eq db k st et rr tid poll hls now hk hnone
      hlive
    have hany : ¬((db.transcripts.any fun r =>
        decide (r.transcript_id = tid)) = true) := by
      rw [List.any_eq_true]
      rintro ⟨x, hx, hxid⟩
      exact hnotid x hx (of_decide_eq_true hxid)
    have hsave : saveTranscript db.transcripts rr.entryId tid
        (if st.isSome && et.isSome then st else none)
        (if st.isSome && et.isSome then et else none) rr.audioUrl
        TranscriptStatus.transcribing none ⟨none, [], some [], none⟩ now =
        db.transcripts ++ [freshRow rr.entryId tid
          (if st.isSome && et.isSome then st else none)
          (if st.isSome && et.isSome then et else none) rr.audioUrl now] := by
      unfold saveTranscript freshRow
      rw [if_neg hany]
    have hlook2 : getTranscript (db.transcripts ++ [freshRow rr.entryId tid
        (if st.isSome && et.isSome then st else none)
        (if st.isSome && et.isSome then et else none) rr.audioUrl now])
        rr.entryId
        (if st.isSome && et.isSome then st else none)
        (if st.isSome && et.isSome then et else none) false =
        some (freshRow rr.entryId tid
          (if st.isSome && et.isSome then st else none)
          (if st.isSome && et.isSome then et else none) rr.audioUrl now) := by
      unfold getTranscript
      rw [List.filter_append, hfil, List.nil_append,
        List.filter_cons_of_pos]
      · rfl
      · exact decide_eq_true
          ⟨rfl, rfl, rfl, fun h => absurd h Bool.false_ne_true⟩
    refine ⟨by rw [h1], ?_, ?_⟩
    all_goals
      rw [h1]
      dsimp only
      rw [hsave]
      rw [transcribe_poll_eq _ k false st et rr sub2 poll2 hls2 now2 _ hk
        hlook2 (by rintro ⟨hc, -⟩; exact TranscriptStatus.noConfusion hc)
        (fun h => TranscriptStatus.noConfusion h)]
      try rfl

/-- Witness for C3: on an empty store, a fresh submission issues `"t1"` and
an identical second request returns `"t1"` again without submitting. -/
theorem claim_C3_witness :
    (transcribePOST emptyDb "k1" false false none none (.ok wResolve)
      (.ok "t1") (fun _ => wPoll) (.ok "u") 1).resp = .submittedNew "t1" ∧
    respTranscriptId (transcribePOST
      (transcribePOST emptyDb "k1" false false none none (.ok wResolve)
        (.ok "t1") (fun _ => wPoll) (.ok "u") 1).db "k1" false false none
      none (.ok wResolve) (.ok "t2") (fun _ => wPoll) (.ok "u") 2).resp =
      some "t1" ∧
    (transcribePOST
      (transcribePOST emptyDb "k1" false false none none (.ok wResolve)
        (.ok "t1") (fun _ => wPoll) (.ok "u") 1).db "k1" false false none
      none (.ok wResolve) (.ok "t2") (fun _ => wPoll) (.ok "u") 2).submitted
      = false :=
  claim_C3.2.2 emptyDb "k1" none none wResolve "t1" (.ok "t2")
    (fun _ => wPoll) (fun _ => wPoll) (.ok "u") (.ok "u") 1 2 (by decide) rfl
    (fun r hr => absurd hr (List.not_mem_nil r))
    (fun r hr => absurd hr (List.not_mem_nil r))

/-- Witness for C10: purging entry `"e1"` from a store holding one
transcript, its speaker mapping, and no videos, satisfies the purge
guarantees. -/
theorem claim_C10_witness :
    ((deleteTranscriptsForEntry wCacheDb "e1").speaker_mappings =
        wCacheDb.speaker_mappings ∧
      (deleteTranscriptsForEntry wCacheDb "e1").videos = wCacheDb.videos ∧
      (∀ r ∈ (deleteTranscriptsForEntry wCacheDb "e1").transcripts,
        r.entry_id ≠ "e1") ∧
      (∀ r ∈ wCacheDb.transcripts, r.entry_id ≠ "e1" →
        r ∈ (deleteTranscriptsForEntry wCacheDb "e1").transcripts) ∧
      (∀ m ∈ wCacheDb.speaker_mappings, ∀ r ∈ wCacheDb.transcripts,
        r.entry_id = "e1" → m.1 = r.transcript_id →
          m ∈ (deleteTranscriptsForEntry wCacheDb "e1").speaker_mappings ∧
          r ∉ (deleteTranscriptsForEntry wCacheDb "e1").transcripts)) ∧
    ∀ (kalturaId : String) (checkOnly : Bool) (startTime endTime : Option ℚ)
      (resolve : Except String ResolveResult)
      (submitRes : Except String String) (poll : String → PollResult)
      (hlsRes : Except String String) (now : ℚ),
      (transcribePOST wCacheDb kalturaId checkOnly true startTime endTime
          resolve submitRes poll hlsRes now).db.speaker_mappings =
        wCacheDb.speaker_mappings ∧
      (transcribePOST wCacheDb kalturaId checkOnly true startTime endTime
          resolve submitRes poll hlsRes now).db.videos = wCacheDb.videos :=
  claim_C10 wCacheDb "e1"

/-- `coversWhole` holds exactly when the row's range starts at the beginning
(`NULL` or `0`) and reaches the full duration (`NULL` end or an end at least
`td`). -/
theorem coversWhole_iff (s : Row) (td : ℚ) :
    coversWhole s td = true ↔
      ((s.start_time = none ∨ s.start_time = some 0) ∧
        (match s.end_time with
         | none => True
         | some e => td ≤ e)) := by
  unfold coversWhole
  cases he : s.end_time with
  | none => simp
  | some e => simp

/-- **C4.** For every gap-analysis request with `isComplete = true`: if some
completed row has `start_time` NULL-or-0 and `end_time` NULL-or-at-least
`totalDuration`, the response is `gaps = []` with
`needsFullRetranscription = false`; if completed rows exist but none
satisfies that condition, the response is `gaps = []` with
`needsFullRetranscription = true`; if no completed rows exist, the response
is the single gap `{start: 0, end: totalDuration}` with
`needsFullRetranscription = false`. -/
theorem claim_C4 (segs : List Row) (ct td : Option ℚ)
    (hcomp : ∀ s ∈ segs, s.status = TranscriptStatus.completed) :
    ((∃ s ∈ segs, (s.start_time = none ∨ s.start_time = some 0) ∧
        (match s.end_time with
         | none => True
         | some e => td.getD 0 ≤ e)) →
      segmentsAnalysis segs ct td true = ⟨[], false⟩) ∧
    (segs ≠ [] →
      (∀ s ∈ segs, ¬((s.start_time = none ∨ s.start_time = some 0) ∧
        (match s.end_time with
         | none => True
         | some e => td.getD 0 ≤ e))) →
      segmentsAnalysis segs ct td true = ⟨[], true⟩) ∧
    (segs = [] →
      segmentsAnalysis segs ct td true = ⟨[(0, td.getD 0)], false⟩) := by
  refine ⟨?_, ?_, ?_⟩
  · rintro ⟨s, hs, hcond⟩
    have hany : (segs.any fun s => coversWhole s (td.getD 0)) = true :=
      List.any_eq_true.mpr ⟨s, hs, (coversWhole_iff s (td.getD 0)).mpr hcond⟩
    unfold segmentsAnalysis
    rw [if_pos rfl]
    dsimp only
    rw [if_pos hany]
  · intro hne hnone
    have hany : ¬((segs.any fun s => coversWhole s (td.getD 0)) = true) := by
      rw [List.any_eq_true]
      rintro ⟨s, hs, hc⟩
      exact hnone s hs ((coversWhole_iff s (td.getD 0)).mp hc)
    unfold segmentsAnalysis
    rw [if_pos rfl]
    dsimp only
    rw [if_neg hany, if_pos (List.length_pos.mpr hne)]
  · intro h
    subst h
    rfl

/-- Witness for C4: completed segments `[{0,100},{150,300}]` with
`totalDuration = 300` need full retranscription; a single `{0,300}` segment
is complete with no gaps. -/
theorem claim_C4_witness :
    segmentsAnalysis [segRow (some 0) (some 100), segRow (some 150)
      (some 300)] none (some 300) true = ⟨[], true⟩ ∧
    segmentsAnalysis [segRow (some 0) (some 300)] none (some 300) true =
      ⟨[], false⟩ := by
  constructor
  · refine (claim_C4 [segRow (some 0) (some 100), segRow (some 150)
      (some 300)] none (some 300) (by decide)).2.1 (by decide) ?_
    intro s hs hc
    have hb := (coversWhole_iff s ((some (300 : ℚ)).getD 0)).mpr hc
    rcases List.mem_cons.mp hs with h | h
    · subst h
      exact absurd hb (by decide)
    · rcases List.mem_cons.mp h with h2 | h2
      · subst h2
        exact absurd hb (by decide)
      · exact absurd h2 (List.not_mem_nil s)
  · exact (claim_C4 [segRow (some 0) (some 300)] none (some 300)
      (by decide)).1
      ⟨segRow (some 0) (some 300), List.mem_singleton.mpr rfl,
        (coversWhole_iff _ _).mp (by decide)⟩

/-- No point is covered by an empty interval list. -/
theorem coveredBy_nil (t : ℚ) : ¬ coveredBy [] t := by
  rintro ⟨c, hc, -⟩
  exact List.not_mem_nil c hc

/-- Coverage by a cons splits into head coverage or tail coverage. -/
theorem coveredBy_cons (x : ℚ × ℚ) (l : List (ℚ × ℚ)) (t : ℚ) :
    coveredBy (x :: l) t ↔ (x.1 ≤ t ∧ t < x.2) ∨ coveredBy l t := by
  unfold coveredBy
  constructor
  · rintro ⟨c, hc, h⟩
    rcases List.mem_cons.mp hc with rfl | hc'
    · exact Or.inl h
    · exact Or.inr ⟨c, hc', h⟩
  · rintro (h | ⟨c, hc, h⟩)
    · exact ⟨x, List.mem_cons_self x l, h⟩
    · exact ⟨c, List.mem_cons_of_mem x hc, h⟩

/-- Coverage by an append splits into coverage by either part. -/
theorem coveredBy_append (l₁ l₂ : List (ℚ × ℚ)) (t : ℚ) :
    coveredBy (l₁ ++ l₂) t ↔ coveredBy l₁ t ∨ coveredBy l₂ t := by
  unfold coveredBy
  constructor
  · rintro ⟨c, hc, h⟩
    rcases List.mem_append.mp hc with hc' | hc'
    · exact Or.inl ⟨c, hc', h⟩
    · exact Or.inr ⟨c, hc', h⟩
  · rintro (⟨c, hc, h⟩ | ⟨c, hc, h⟩)
    · exact ⟨c, List.mem_append_left _ hc, h⟩
    · exact ⟨c, List.mem_append_right _ hc, h⟩

/-- Coverage is invariant under permutation of the interval list. -/
theorem coveredBy_perm {l₁ l₂ : List (ℚ × ℚ)} (h : l₁.Perm l₂) (t : ℚ) :
    coveredBy l₁ t ↔ coveredBy l₂ t := by
  unfold coveredBy
  constructor
  · rintro ⟨c, hc, hcov⟩
    exact ⟨c, h.mem_iff.mp hc, hcov⟩
  · rintro ⟨c, hc, hcov⟩
    exact ⟨c, h.mem_iff.mpr hc, hcov⟩

/-- Pointwise description of `gapsAfter`: for well-formed, sorted,
non-nested segments within `[0, tE)`, the gaps after frontier `a` cover
exactly the points from `a.2` up to `tE` not covered by the remaining
segments. -/
theorem gapsAfter_pointwise (tE : ℚ) (a : ℚ × ℚ) (l : List (ℚ × ℚ))
    (hwf : ∀ c ∈ l, c.1 ≤ c.2 ∧ c.2 ≤ tE)
    (hpw : l.Pairwise segLE) (hfirst : ∀ c ∈ l, segLE a c) (t : ℚ) :
    coveredBy (gapsAfter tE a l) t ↔
      (a.2 ≤ t ∧ t < tE ∧ ¬ coveredBy l t) := by
  induction l generalizing a with
  | nil =>
    unfold gapsAfter
    by_cases h : a.2 < tE
    · rw [if_pos h, coveredBy_cons]
      constructor
      · rintro (⟨h1, h2⟩ | hcov)
        · exact ⟨h1, h2, coveredBy_nil t⟩
        · exact absurd hcov (coveredBy_nil t)
      · rintro ⟨h1, h2, -⟩
        exact Or.inl ⟨h1, h2⟩
    · rw [if_neg h]
      constructor
      · intro hcov
        exact absurd hcov (coveredBy_nil t)
      · rintro ⟨h1, h2, -⟩
        exact absurd (lt_of_le_of_lt h1 h2) h
  | cons b l ih =>
    have hab : segLE a b := hfirst b (List.mem_cons_self b l)
    have hb : b.1 ≤ b.2 ∧ b.2 ≤ tE := hwf b (List.mem_cons_self b l)
    have hpw' : l.Pairwise segLE := (List.pairwise_cons.mp hpw).2
    have hbfirst : ∀ c ∈ l, segLE b c := (List.pairwise_cons.mp hpw).1
    have hwf' : ∀ c ∈ l, c.1 ≤ c.2 ∧ c.2 ≤ tE :=
      fun c hc => hwf c (List.mem_cons_of_mem b hc)
    unfold gapsAfter
    rw [coveredBy_append, coveredBy_cons b l,
      ih b hwf' hpw' hbfirst]
    constructor
    · rintro (hgap | ⟨h1, h2, h3⟩)
      · by_cases hmid : a.2 < b.1
        · rw [if_pos hmid, coveredBy_cons] at hgap
          rcases hgap with ⟨h1, h2⟩ | hgap
          · refine ⟨h1, lt_of_lt_of_le (lt_of_lt_of_le h2 hb.1) hb.2, ?_⟩
            rintro (⟨hb1, -⟩ | ⟨c, hc, hc1, -⟩)
            · exact absurd (lt_of_le_of_lt hb1 h2) (lt_irrefl _)
            · exact absurd (lt_of_le_of_lt ((hbfirst c hc).1.trans hc1) h2)
                (lt_irrefl _)
          · exact absurd hgap (coveredBy_nil t)
        · rw [if_neg hmid] at hgap
          exact absurd hgap (coveredBy_nil t)
      · refine ⟨hab.2.trans h1, h2, ?_⟩
        rintro (⟨-, hb2⟩ | hcov)
        · exact absurd (lt_of_le_of_lt h1 hb2) (lt_irrefl _)
        · exact h3 hcov
    · rintro ⟨h1, h2, h3⟩
      by_cases hbt : t < b.1
      · refine Or.inl ?_
        rw [if_pos (lt_of_le_of_lt h1 hbt), coveredBy_cons]
        exact Or.inl ⟨h1, hbt⟩
      · push_neg at hbt
        have hb2t : b.2 ≤ t := by
          by_contra hb2t
          push_neg at hb2t
          exact h3 (Or.inl ⟨hbt, hb2t⟩)
        exact Or.inr ⟨hb2t, h2, fun hcov => h3 (Or.inr hcov)⟩

/-- Pointwise description of `computeLiveGaps`: for well-formed, sorted,
non-nested segments within `[0, tE)`, the computed gaps cover exactly the
points of `[0, tE)` not covered by the segments. -/
theorem computeLiveGaps_pointwise (tE : ℚ) (l : List (ℚ × ℚ))
    (hwf : ∀ c ∈ l, 0 ≤ c.1 ∧ c.1 ≤ c.2 ∧ c.2 ≤ tE)
    (hpw : l.Pairwise segLE) (t : ℚ) :
    coveredBy (computeLiveGaps tE l) t ↔
      (0 ≤ t ∧ t < tE ∧ ¬ coveredBy l t) := by
  cases l with
  | nil =>
    unfold computeLiveGaps
    rw [coveredBy_cons]
    constructor
    · rintro (⟨h1, h2⟩ | hcov)
      · exact ⟨h1, h2, coveredBy_nil t⟩
      · exact absurd hcov (coveredBy_nil t)
    · rintro ⟨h1, h2, -⟩
      exact Or.inl ⟨h1, h2⟩
  | cons c cs =>
    have hc := hwf c (List.mem_cons_self c cs)
    have hpw' : cs.Pairwise segLE := (List.pairwise_cons.mp hpw).2
    have hcfirst : ∀ d ∈ cs, segLE c d := (List.pairwise_cons.mp hpw).1
    have hwf' : ∀ d ∈ cs, d.1 ≤ d.2 ∧ d.2 ≤ tE :=
      fun d hd => ⟨(hwf d (List.mem_cons_of_mem c hd)).2.1,
        (hwf d (List.mem_cons_of_mem c hd)).2.2⟩
    unfold computeLiveGaps
    rw [coveredBy_append, coveredBy_cons c cs,
      gapsAfter_pointwise tE c cs hwf' hpw' hcfirst]
    constructor
    · rintro (hgap | ⟨h1, h2, h3⟩)
      · by_cases hstart : 0 < c.1
        · rw [if_pos hstart, coveredBy_cons] at hgap
          rcases hgap with ⟨h1, h2⟩ | hgap
          · refine ⟨h1, lt_of_lt_of_le (lt_of_lt_of_le h2 hc.2.1)
              hc.2.2, ?_⟩
            rintro (⟨hc1, -⟩ | ⟨d, hd, hd1, -⟩)
            · exact absurd (lt_of_le_of_lt hc1 h2) (lt_irrefl _)
            · exact absurd (lt_of_le_of_lt ((hcfirst d hd).1.trans hd1) h2)
                (lt_irrefl _)
          · exact absurd hgap (coveredBy_nil t)
        · rw [if_neg hstart] at hgap
          exact absurd hgap (coveredBy_nil t)
      · refine ⟨hc.1.trans (hc.2.1.trans h1), h2, ?_⟩
        rintro (⟨-, hc2⟩ | hcov)
        · exact absurd (lt_of_le_of_lt h1 hc2) (lt_irrefl _)
        · exact h3 hcov
    · rintro ⟨h1, h2, h3⟩
      by_cases hct : t < c.1
      · refine Or.inl ?_
        rw [if_pos (lt_of_le_of_lt h1 hct), coveredBy_cons]
        exact Or.inl ⟨h1, hct⟩
      · push_neg at hct
        have hc2t : c.2 ≤ t := by
          by_contra hc2t
          push_neg at hc2t
          exact h3 (Or.inl ⟨hct, hc2t⟩)
        exact Or.inr ⟨hc2t, h2, fun hcov => h3 (Or.inr hcov)⟩

/-- The gaps after frontier `a` are pairwise disjoint in increasing order,
and all start at or after `a.2`. -/
theorem gapsAfter_chain (tE : ℚ) (a : ℚ × ℚ) (l : List (ℚ × ℚ))
    (hwf : ∀ c ∈ l, c.1 ≤ c.2)
    (hpw : l.Pairwise segLE) (hfirst : ∀ c ∈ l, segLE a c) :
    List.Chain' (fun g h : ℚ × ℚ => g.2 ≤ h.1) (gapsAfter tE a l) ∧
    ∀ g ∈ gapsAfter tE a l, a.2 ≤ g.1 := by
  induction l generalizing a with
  | nil =>
    unfold gapsAfter
    by_cases h : a.2 < tE
    · rw [if_pos h]
      refine ⟨List.chain'_singleton _, fun g hg => ?_⟩
      rw [List.mem_singleton] at hg
      subst hg
      exact le_refl _
    · rw [if_neg h]
      exact ⟨List.chain'_nil, fun g hg => absurd hg (List.not_mem_nil g)⟩
  | cons b l ih =>
    have hab : segLE a b := hfirst b (List.mem_cons_self b l)
    have hwfb : b.1 ≤ b.2 := hwf b (List.mem_cons_self b l)
    have hpw' : l.Pairwise segLE := (List.pairwise_cons.mp hpw).2
    have hbfirst : ∀ c ∈ l, segLE b c := (List.pairwise_cons.mp hpw).1
    have hwf' : ∀ c ∈ l, c.1 ≤ c.2 :=
      fun c hc => hwf c (List.mem_cons_of_mem b hc)
    obtain ⟨ihc, ihb⟩ := ih b hwf' hpw' hbfirst
    unfold gapsAfter
    by_cases hmid : a.2 < b.1
    · rw [if_pos hmid, List.singleton_append]
      constructor
      · refine List.chain'_cons'.mpr ⟨?_, ihc⟩
        intro y hy
        exact le_trans hwfb (ihb y (List.mem_of_mem_head? hy))
      · intro g hg
        rcases List.mem_cons.mp hg with rfl | hg'
        · exact le_refl _
        · exact le_trans hab.2 (ihb g hg')
    · rw [if_neg hmid, List.nil_append]
      exact ⟨ihc, fun g hg => le_trans hab.2 (ihb g hg)⟩

/-- The live-branch gaps are pairwise disjoint and in increasing order. -/
theorem computeLiveGaps_chain (tE : ℚ) (l : List (ℚ × ℚ))
    (hwf : ∀ c ∈ l, c.1 ≤ c.2) (hpw : l.Pairwise segLE) :
    List.Chain' (fun g h : ℚ × ℚ => g.2 ≤ h.1) (computeLiveGaps tE l) := by
  cases l with
  | nil => exact List.chain'_singleton _
  | cons c cs =>
    have hwfc : c.1 ≤ c.2 := hwf c (List.mem_cons_self c cs)
    have hpw' : cs.Pairwise segLE := (List.pairwise_cons.mp hpw).2
    have hcfirst : ∀ d ∈ cs, segLE c d := (List.pairwise_cons.mp hpw).1
    have hwf' : ∀ d ∈ cs, d.1 ≤ d.2 :=
      fun d hd => hwf d (List.mem_cons_of_mem c hd)
    obtain ⟨ihc, ihb⟩ := gapsAfter_chain tE c cs hwf' hpw' hcfirst
    unfold computeLiveGaps
    dsimp only
    by_cases hstart : 0 < c.1
    · rw [if_pos hstart, List.singleton_append]
      refine List.chain'_cons'.mpr ⟨?_, ihc⟩
      intro y hy
      exact le_trans hwfc (ihb y (List.mem_of_mem_head? hy))
    · rw [if_neg hstart, List.nil_append]
      exact ihc

/-- **C5 (counterexample).** As stated for *every* list of completed
segments the claim fails: with nested completed segments
`[{0,100},{10,20}]` and `targetEnd = 100` the endpoint emits the gap
`{20,100}`, whose points (for example `t = 50`) are in fact covered by the
segment `{0,100}`; and with a single segment `{50,60}` beyond
`targetEnd = 20` it emits the gap `{0,50}`, which contains points (for
example `t = 30`) outside `[0, targetEnd]` and not covered by any segment.
So the gaps are not the complement of the union within `[0, targetEnd]`. -/
theorem claim_C5_counterexample :
    ((segmentsAnalysis [segRow (some 0) (some 100), segRow (some 10)
        (some 20)] (some 100) none false).gaps = [(20, 100)] ∧
      coveredBy (completedIntervals [segRow (some 0) (some 100),
        segRow (some 10) (some 20)]) 50 ∧
      coveredBy (segmentsAnalysis [segRow (some 0) (some 100),
        segRow (some 10) (some 20)] (some 100) none false).gaps 50) ∧
    ((segmentsAnalysis [segRow (some 50) (some 60)] (some 20) none
        false).gaps = [(0, 50)] ∧
      coveredBy (segmentsAnalysis [segRow (some 50) (some 60)] (some 20)
        none false).gaps 30 ∧
      ¬ ((30 : ℚ) < 20) ∧
      ¬ coveredBy (completedIntervals [segRow (some 50) (some 60)]) 30) := by
  decide

/-- **C5 (amended).** For every gap-analysis request for a live resource
(`isComplete = false`), *provided* the completed segments' coerced intervals
are each within `[0, targetEnd]` with `start ≤ end` and, sorted by start,
have nondecreasing ends (no segment nested in a later-starting one) — where
`targetEnd` is `currentTime` or else `totalDuration` or else 0, and
intervals are read half-open — the returned gaps cover exactly the time
points of `[0, targetEnd)` not covered by any completed segment, are
pairwise disjoint, appear in increasing order, and
`needsFullRetranscription` is `false`. -/
theorem claim_C5_amended (segs : List Row) (ct td : Option ℚ)
    (hwf : ∀ c ∈ sortedIntervals segs,
      0 ≤ c.1 ∧ c.1 ≤ c.2 ∧ c.2 ≤ jsOrQ ct (jsOrQ td 0))
    (hpw : (sortedIntervals segs).Pairwise segLE) :
    (∀ t : ℚ, coveredBy (segmentsAnalysis segs ct td false).gaps t ↔
      (0 ≤ t ∧ t < jsOrQ ct (jsOrQ td 0) ∧
        ¬ coveredBy (completedIntervals segs) t)) ∧
    List.Chain' (fun g h : ℚ × ℚ => g.2 ≤ h.1)
      (segmentsAnalysis segs ct td false).gaps ∧
    (segmentsAnalysis segs ct td false).needsFullRetranscription = false := by
  have hperm : (sortedIntervals segs).Perm (completedIntervals segs) :=
    List.perm_insertionSort _ _
  unfold segmentsAnalysis
  rw [if_neg Bool.false_ne_true]
  dsimp only
  refine ⟨fun t => ?_, ?_, rfl⟩
  · rw [computeLiveGaps_pointwise _ _ hwf hpw t, coveredBy_perm hperm t]
  · exact computeLiveGaps_chain _ _ (fun c hc => (hwf c hc).2.1) hpw

/-- Witness for the amended C5: two disjoint in-range segments
`[{0,100},{150,300}]` with `totalDuration = 300` satisfy the amended
complement description. -/
theorem claim_C5_amended_witness :
    (∀ t : ℚ, coveredBy (segmentsAnalysis [segRow (some 0) (some 100),
        segRow (some 150) (some 300)] none (some 300) false).gaps t ↔
      (0 ≤ t ∧ t < jsOrQ none (jsOrQ (some 300) 0) ∧
        ¬ coveredBy (completedIntervals [segRow (some 0) (some 100),
          segRow (some 150) (some 300)]) t)) ∧
    List.Chain' (fun g h : ℚ × ℚ => g.2 ≤ h.1)
      (segmentsAnalysis [segRow (some 0) (some 100),
        segRow (some 150) (some 300)] none (some 300) false).gaps ∧
    (segmentsAnalysis [segRow (some 0) (some 100),
      segRow (some 150) (some 300)] none (some 300)
      false).needsFullRetranscription = false :=
  claim_C5_amended [segRow (some 0) (some 100), segRow (some 150)
    (some 300)] none (some 300) (by decide) (by decide)

/-- After writing key `k`, the mapping holds a record under `k`. -/
theorem upsertMapping_mem_self (m : SpeakerMapping) (k : String)
    (v : SpeakerInfo) : ∃ w, (k, w) ∈ upsertMapping m k v := by
  unfold upsertMapping
  by_cases h : (m.any fun e => e.1 = k) = true
  · rw [if_pos h]
    rcases List.any_eq_true.mp h with ⟨e, he, hek⟩
    refine ⟨v, ?_⟩
    have hmem := List.mem_map_of_mem
      (fun e => if e.1 = k then (k, v) else e) he
    dsimp only at hmem
    rw [if_pos (of_decide_eq_true hek)] at hmem
    exact hmem
  · rw [if_neg h]
    exact ⟨v, List.mem_append_right m (List.mem_singleton.mpr rfl)⟩

/-- Writing one key never removes another key's record. -/
theorem upsertMapping_mem_preserved (m : SpeakerMapping) (k' : String)
    (v' : SpeakerInfo) (k : String) (h : ∃ w, (k, w) ∈ m) :
    ∃ w, (k, w) ∈ upsertMapping m k' v' := by
  by_cases hk : k = k'
  · subst hk
    exact upsertMapping_mem_self m k v'
  · rcases h with ⟨w, hw⟩
    unfold upsertMapping
    by_cases hany : (m.any fun e => e.1 = k') = true
    · rw [if_pos hany]
      refine ⟨w, ?_⟩
      have hmem := List.mem_map_of_mem
        (fun e => if e.1 = k' then (k', v') else e) hw
      dsimp only at hmem
      rw [if_neg hk] at hmem
      exact hmem
    · rw [if_neg hany]
      exact ⟨w, List.mem_append_left _ hw⟩

/-- Folding the parsed records preserves key presence. -/
theorem foldMapping_mem_preserved (parsed : List ParsedPara)
    (m : SpeakerMapping) (k : String) (h : ∃ w, (k, w) ∈ m) :
    ∃ w, (k, w) ∈ parsed.foldl
      (fun m p => upsertMapping m (toString p.index)
        ⟨p.name, p.function, p.affiliation, p.group⟩) m := by
  induction parsed generalizing m with
  | nil => exact h
  | cons q rest ih =>
    exact ih _ (upsertMapping_mem_preserved m (toString q.index) _ k h)

/-- Every returned record's index key ends up present in the built
mapping. -/
theorem buildMapping_mem (parsed : List ParsedPara) :
    ∀ p ∈ parsed, ∃ v, (toString p.index, v) ∈ buildMapping parsed := by
  unfold buildMapping
  suffices h : ∀ (m : SpeakerMapping), ∀ p ∈ parsed, ∃ v,
      (toString p.index, v) ∈ parsed.foldl
        (fun m p => upsertMapping m (toString p.index)
          ⟨p.name, p.function, p.affiliation, p.group⟩) m by
    exact h []
  induction parsed with
  | nil => intro m p hp; exact absurd hp (List.not_mem_nil p)
  | cons q rest ih =>
    intro m p hp
    rcases List.mem_cons.mp hp with rfl | hp'
    · exact foldMapping_mem_preserved rest _ _
        (upsertMapping_mem_self m (toString p.index) _)
    · exact ih _ p hp'

/-- **C7.** If the classification call produces no parsable result (no
message content, or content that fails to parse), the endpoint returns an
error response and persists nothing: `setSpeakerMapping` runs only after
the whole structured response has parsed, with one record per returned
index; when fewer records come back than input paragraphs, the warning is
logged but the partial-coverage mapping is still persisted and returned as
a non-fatal result. -/
theorem claim_C7 (db : Db) (paragraphs : List RawParagraph)
    (transcriptId : Option String)
    (completion : Except String (Option String))
    (parse : String → Except String (List ParsedPara))
    (hp : paragraphs ≠ []) :
    ((completion = .ok none ∨ completion = .ok (some "")) →
      (classifySpeakersPOST db paragraphs transcriptId completion
        parse).resp = .err 500 "Failed to parse speaker mappings" ∧
      (classifySpeakersPOST db paragraphs transcriptId completion
        parse).db = db) ∧
    (∀ e, completion = .error e →
      (classifySpeakersPOST db paragraphs transcriptId completion
        parse).resp = .err 500 e ∧
      (classifySpeakersPOST db paragraphs transcriptId completion
        parse).db = db) ∧
    (∀ s e, completion = .ok (some s) → s ≠ "" → parse s = .error e →
      (classifySpeakersPOST db paragraphs transcriptId completion
        parse).resp = .err 500 e ∧
      (classifySpeakersPOST db paragraphs transcriptId completion
        parse).db = db) ∧
    (∀ s parsed, completion = .ok (some s) → s ≠ "" →
      parse s = .ok parsed →
      (∀ p ∈ parsed, ∃ v, (toString p.index, v) ∈ buildMapping parsed) ∧
      (classifySpeakersPOST db paragraphs transcriptId completion
        parse).resp = .ok (buildMapping parsed) ∧
      ((classifySpeakersPOST db paragraphs transcriptId completion
        parse).warned = true ↔ parsed.length < paragraphs.length) ∧
      (∀ tid, transcriptId = some tid → tid ≠ "" →
        (classifySpeakersPOST db paragraphs transcriptId completion
          parse).db = setSpeakerMapping db tid (buildMapping parsed))) := by
  have hlen : ¬(paragraphs.length = 0) :=
    fun h => hp (List.length_eq_zero.mp h)
  refine ⟨?_, ?_, ?_, ?_⟩
  · rintro (h | h) <;>
      · subst h
        unfold classifySpeakersPOST
        rw [if_neg hlen]
        exact ⟨rfl, rfl⟩
  · intro e h
    subst h
    unfold classifySpeakersPOST
    rw [if_neg hlen]
    exact ⟨rfl, rfl⟩
  · intro s e hcmp hs hparse
    subst hcmp
    unfold classifySpeakersPOST
    rw [if_neg hlen]
    dsimp only
    rw [if_neg hs, hparse]
    exact ⟨rfl, rfl⟩
  · intro s parsed hcmp hs hparse
    subst hcmp
    unfold classifySpeakersPOST
    rw [if_neg hlen]
    dsimp only
    rw [if_neg hs, hparse]
    refine ⟨buildMapping_mem parsed, rfl, ?_, ?_⟩
    · dsimp only
      exact ⟨of_decide_eq_true, decide_eq_true⟩
    · intro tid htid hne
      subst htid
      dsimp only
      rw [if_neg hne]

/-- Witness for C7: one paragraph, one parsed record for index 0, a stored
transcript id: the mapping is built, persisted and returned, with no
warning (one record for one paragraph). -/
theorem claim_C7_witness :
    (∀ p ∈ [wParsed], ∃ v, (toString p.index, v) ∈ buildMapping [wParsed]) ∧
    (classifySpeakersPOST wCacheDb [rawPara1] (some "t1") (.ok (some "{}"))
      (fun _ => .ok [wParsed])).resp = .ok (buildMapping [wParsed]) ∧
    ((classifySpeakersPOST wCacheDb [rawPara1] (some "t1") (.ok (some "{}"))
      (fun _ => .ok [wParsed])).warned = true ↔
      [wParsed].length < [rawPara1].length) ∧
    (∀ tid, (some "t1" : Option String) = some tid → tid ≠ "" →
      (classifySpeakersPOST wCacheDb [rawPara1] (some "t1")
        (.ok (some "{}")) (fun _ => .ok [wParsed])).db =
        setSpeakerMapping wCacheDb tid (buildMapping [wParsed])) :=
  (claim_C7 wCacheDb [rawPara1] (some "t1") (.ok (some "{}"))
    (fun _ => .ok [wParsed]) (by decide)).2.2.2 "{}" [wParsed] rfl
    (by decide) rfl

/-- Tagging a concatenation of sentence runs splits at the length of the
first run. -/
theorem tagSentsFrom_append (o : ℕ → Except Unit (Option String)) (b : ℕ)
    (l₁ l₂ : List Sentence) :
    tagSentsFrom o b (l₁ ++ l₂) =
      tagSentsFrom o b l₁ ++ tagSentsFrom o (b + l₁.length) l₂ := by
  induction l₁ generalizing b with
  | nil => simp [tagSentsFrom]
  | cons s rest ih =>
    have h1 : tagSentsFrom o b ((s :: rest) ++ l₂) =
        tagSent o b s :: tagSentsFrom o (b + 1) (rest ++ l₂) := rfl
    have h2 : tagSentsFrom o b (s :: rest) =
        tagSent o b s :: tagSentsFrom o (b + 1) rest := rfl
    rw [h1, h2, ih (b + 1), List.length_cons,
      show b + 1 + rest.length = b + (rest.length + 1) from by omega,
      List.cons_append]

/-- The tagged sentence at flat position `n` is the original sentence with
the tags of call `b + n`. -/
theorem tagSentsFrom_getElem? (o : ℕ → Except Unit (Option String)) (b : ℕ)
    (l : List Sentence) (n : ℕ) :
    (tagSentsFrom o b l)[n]? = (l[n]?).map (tagSent o (b + n)) := by
  induction l generalizing b n with
  | nil => simp [tagSentsFrom]
  | cons s rest ih =>
    cases n with
    | zero => simp [tagSentsFrom]
    | succ m =>
      simp only [tagSentsFrom, List.getElem?_cons_succ, ih (b + 1) m]
      rw [show b + 1 + m = b + (m + 1) from by omega]

/-- Tagging a statement's paragraphs flattens to tagging its flat sentence
run. -/
theorem tagParasFrom_flat (o : ℕ → Except Unit (Option String)) (b : ℕ)
    (ps : List SentPara) :
    (tagParasFrom o b ps).flatMap (fun p => p.sentences) =
      tagSentsFrom o b (ps.flatMap fun p => p.sentences) := by
  induction ps generalizing b with
  | nil => simp [tagParasFrom, tagSentsFrom]
  | cons p rest ih =>
    simp only [tagParasFrom, List.flatMap_cons]
    rw [tagSentsFrom_append, ih (b + p.sentences.length)]

/-- A statement's sentence count is the length of its flat sentence run. -/
theorem stmtSentCount_eq_length (st : Statement) :
    (st.paragraphs.flatMap fun p => p.sentences).length = stmtSentCount st := by
  unfold stmtSentCount
  induction st.paragraphs with
  | nil => simp
  | cons p rest ih => simp [ih]

/-- Tagging the statement list flattens to tagging the flat sentence
list. -/
theorem tagStmtsFrom_flat (o : ℕ → Except Unit (Option String)) (b : ℕ)
    (sts : List Statement) :
    flatSents (tagStmtsFrom o b sts) = tagSentsFrom o b (flatSents sts) := by
  induction sts generalizing b with
  | nil => simp [tagStmtsFrom, flatSents, tagSentsFrom]
  | cons st rest ih =>
    unfold flatSents at ih ⊢
    simp only [tagStmtsFrom, List.flatMap_cons]
    rw [tagSentsFrom_append, tagParasFrom_flat, ih (b + stmtSentCount st),
      stmtSentCount_eq_length]

/-- Erasing the written field undoes one sentence tagging. -/
theorem tagSentsFrom_strip (o : ℕ → Except Unit (Option String)) (b : ℕ)
    (l : List Sentence) :
    (tagSentsFrom o b l).map stripTags = l.map stripTags := by
  induction l generalizing b with
  | nil => rfl
  | cons s rest ih =>
    simp only [tagSentsFrom, List.map_cons, ih (b + 1)]
    rfl

/-- Erasing the written field undoes paragraph tagging. -/
theorem tagParasFrom_strip (o : ℕ → Except Unit (Option String)) (b : ℕ)
    (ps : List SentPara) :
    (tagParasFrom o b ps).map stripTagsPara = ps.map stripTagsPara := by
  induction ps generalizing b with
  | nil => rfl
  | cons p rest ih =>
    simp only [tagParasFrom, List.map_cons, ih]
    unfold stripTagsPara
    rw [tagSentsFrom_strip]

/-- Erasing the written field undoes statement tagging. -/
theorem tagStmtsFrom_strip (o : ℕ → Except Unit (Option String)) (b : ℕ)
    (sts : List Statement) :
    (tagStmtsFrom o b sts).map stripTagsStmt = sts.map stripTagsStmt := by
  induction sts generalizing b with
  | nil => rfl
  | cons st rest ih =>
    simp only [tagStmtsFrom, List.map_cons, ih]
    unfold stripTagsStmt
    rw [tagParasFrom_strip]

/-- Tagging preserves the number of sentences. -/
theorem tagSentsFrom_length (o : ℕ → Except Unit (Option String)) (b : ℕ)
    (l : List Sentence) : (tagSentsFrom o b l).length = l.length := by
  induction l generalizing b with
  | nil => rfl
  | cons s rest ih => simp [tagSentsFrom, ih (b + 1)]

/-- **C8.** A topic-tagging pass keeps every sentence of the input at its
original statement/paragraph/sentence position (only the
`un80_topic_keys` field changes, and no other part of the content), and
after the pass every sentence's `un80_topic_keys` is defined, holding the
tags computed from its own classification call: the parsed list of slugs on
a successful non-`"none"` answer, and `[]` when the call fails or answers
`"none"` (or nothing).  A failing call for one sentence never disturbs the
others. -/
theorem claim_C8 (content : Content)
    (oracle : ℕ → Except Unit (Option String)) :
    (tagSentencesWithUN80Topics content oracle).raw_paragraphs =
      content.raw_paragraphs ∧
    (tagSentencesWithUN80Topics content oracle).topics = content.topics ∧
    (tagSentencesWithUN80Topics content oracle).un80_topics =
      content.un80_topics ∧
    (tagSentencesWithUN80Topics content oracle).statements.map
      stripTagsStmt = content.statements.map stripTagsStmt ∧
    (flatSents (tagSentencesWithUN80Topics content
      oracle).statements).length = (flatSents content.statements).length ∧
    (∀ (n : ℕ) (s : Sentence),
      (flatSents (tagSentencesWithUN80Topics content
        oracle).statements)[n]? = some s →
      s.un80_topic_keys = some (computeTags (oracle n))) ∧
    computeTags (.error ()) = [] ∧
    (∀ t : String, (t.trim.toLower = "none" ∨ t.trim = "") →
      computeTags (.ok (some t)) = []) ∧
    (∀ t : String, ¬(t.trim.toLower = "none" ∨ t.trim = "") →
      computeTags (.ok (some t)) =
        ((t.trim.splitOn ",").map (fun u => u.trim)).filter
          (fun u => u ≠ "")) := by
  refine ⟨rfl, rfl, rfl, ?_, ?_, ?_, rfl, ?_, ?_⟩
  · exact tagStmtsFrom_strip oracle 0 content.statements
  · show (flatSents (tagStmtsFrom oracle 0 content.statements)).length = _
    rw [tagStmtsFrom_flat]
    exact tagSentsFrom_length oracle 0 (flatSents content.statements)
  · intro n s h
    show s.un80_topic_keys = some (computeTags (oracle n))
    rw [show (tagSentencesWithUN80Topics content oracle).statements =
      tagStmtsFrom oracle 0 content.statements from rfl,
      tagStmtsFrom_flat, tagSentsFrom_getElem?] at h
    rcases hx : (flatSents content.statements)[n]? with - | x
    · rw [hx] at h
      exact absurd h (by simp)
    · rw [hx] at h
      have hs : s = tagSent oracle (0 + n) x := (Option.some_inj.mp h).symm
      subst hs
      rw [Nat.zero_add]
      rfl
  · intro t ht
    show (if (t.trim.toLower = "none" ∨ t.trim = "") then _ else _) = _
    rw [if_pos ht]
  · intro t ht
    show (if (t.trim.toLower = "none" ∨ t.trim = "") then _ else _) = _
    rw [if_neg ht]
    rfl

/-- Witness for C8: tagging ten sentences where calls 3 and 7 fail leaves
all ten sentences in place and writes empty tag lists on the two failed
ones. -/
theorem claim_C8_witness :
    (flatSents (tagSentencesWithUN80Topics wTagContent
      wOracle).statements).length = 10 ∧
    (flatSents (tagSentencesWithUN80Topics wTagContent
      wOracle).statements)[3]? =
      some { wSent 3 with un80_topic_keys := some [] } ∧
    (flatSents (tagSentencesWithUN80Topics wTagContent
      wOracle).statements)[7]? =
      some { wSent 7 with un80_topic_keys := some [] } ∧
    ({ wSent 3 with un80_topic_keys := some [] } : Sentence).un80_topic_keys
      = some (computeTags (wOracle 3)) := by
  refine ⟨by decide, by decide, by decide, ?_⟩
  exact (claim_C8 wTagContent wOracle).2.2.2.2.2.1 3
    { wSent 3 with un80_topic_keys := some [] } (by decide)
